import Mathlib

/-!
Verification of the surbtc-rest-client library (src/index.js and the v2
client src/unnamed/part_002) against its natural-language specification.

The development shallowly embeds the signing scheme (HMAC-SHA384 over a
canonical message), the auth-header builder, the facade operations with
their credential guards, the order pager and the order-state poller.
Bytes are `Nat` values below 256, 64-bit machine words are `Nat` values
reduced modulo 2^64 at every step.
-/

namespace Surbtc

/-! ### Bytes, words, hex -/

/-- 64-bit truncation, mirroring Node's internal word arithmetic in sha512. -/
def w64 (x : Nat) : Nat := x % 18446744073709551616

/-- Rotate a 64-bit word right by `n` (for `x < 2^64`). -/
def rotr (n x : Nat) : Nat := (x >>> n) ||| (w64 (x <<< (64 - n)))

/-- Bitwise complement on 64-bit words (for `x < 2^64`). -/
def not64 (x : Nat) : Nat := 18446744073709551615 - x

/-- Semantically the identity on `k`; matching on `n` first makes a
kernel evaluator reduce `n` to a numeral before touching `k`, keeping
the evaluation stack shallow when hash rounds are chained. -/
def seqNat (n k : Nat) : Nat :=
  match n with
  | 0 => k
  | _ + 1 => k

/-- Big-endian byte serialization of `x` into `n` bytes. -/
def toBytesBE (n x : Nat) : List Nat :=
  (List.range n).map (fun i => (x >>> (8 * (n - 1 - i))) % 256)

/-- Big-endian interpretation of a byte list as one number. -/
def fromBytesBE (bs : List Nat) : Nat :=
  bs.foldl (fun acc b => acc * 256 + b) 0

/-- Lowercase hexadecimal digit for `n < 16`. -/
def hexDigit (n : Nat) : Char :=
  if n < 10 then Char.ofNat (48 + n) else Char.ofNat (87 + n)

/-- Lowercase hexadecimal rendering of a byte list; this is what Node's
`digest('hex')` produces. -/
def bytesToHex (bs : List Nat) : String :=
  String.mk (bs.foldr (fun b acc => hexDigit (b / 16) :: hexDigit (b % 16) :: acc) [])

/-- UTF-8 encoding of a single code point. -/
def utf8EncodeChar (n : Nat) : List Nat :=
  if n < 128 then [n]
  else if n < 2048 then [192 + n / 64, 128 + n % 64]
  else if n < 65536 then [224 + n / 4096, 128 + (n / 64) % 64, 128 + n % 64]
  else [240 + n / 262144, 128 + (n / 4096) % 64, 128 + (n / 64) % 64, 128 + n % 64]

/-- UTF-8 encoding of a string, as Node's `Buffer`/`Hmac.update` use by default. -/
def utf8Encode (s : String) : List Nat :=
  s.data.foldr (fun c acc => utf8EncodeChar c.toNat ++ acc) []

/-- Split a list into chunks of `n` elements (fuel-driven, structurally
recursive so the kernel can evaluate it). -/
def chunksGo (n : Nat) : Nat → List α → List (List α)
  | 0, _ => []
  | _, [] => []
  | fuel + 1, xs => xs.take n :: chunksGo n fuel (xs.drop n)

def chunks (n : Nat) (xs : List α) : List (List α) := chunksGo n xs.length xs

/-! ### SHA-512 / SHA-384 core (FIPS 180-4), the digest Node's
`crypto.createHmac('sha384', _)` is built on. -/

/-- The 80 SHA-512 round constants. -/
def shaK : List Nat := [
    4794697086780616226, 8158064640168781261, 13096744586834688815, 16840607885511220156,
    4131703408338449720, 6480981068601479193, 10538285296894168987, 12329834152419229976,
    15566598209576043074, 1334009975649890238, 2608012711638119052, 6128411473006802146,
    8268148722764581231, 9286055187155687089, 11230858885718282805, 13951009754708518548,
    16472876342353939154, 17275323862435702243, 1135362057144423861, 2597628984639134821,
    3308224258029322869, 5365058923640841347, 6679025012923562964, 8573033837759648693,
    10970295158949994411, 12119686244451234320, 12683024718118986047, 13788192230050041572,
    14330467153632333762, 15395433587784984357, 489312712824947311, 1452737877330783856,
    2861767655752347644, 3322285676063803686, 5560940570517711597, 5996557281743188959,
    7280758554555802590, 8532644243296465576, 9350256976987008742, 10552545826968843579,
    11727347734174303076, 12113106623233404929, 14000437183269869457, 14369950271660146224,
    15101387698204529176, 15463397548674623760, 17586052441742319658, 1182934255886127544,
    1847814050463011016, 2177327727835720531, 2830643537854262169, 3796741975233480872,
    4115178125766777443, 5681478168544905931, 6601373596472566643, 7507060721942968483,
    8399075790359081724, 8693463985226723168, 9568029438360202098, 10144078919501101548,
    10430055236837252648, 11840083180663258601, 13761210420658862357, 14299343276471374635,
    14566680578165727644, 15097957966210449927, 16922976911328602910, 17689382322260857208,
    500013540394364858, 748580250866718886, 1242879168328830382, 1977374033974150939,
    2944078676154940804, 3659926193048069267, 4368137639120453308, 4836135668995329356,
    5532061633213252278, 6448918945643986474, 6902733635092675308, 7801388544844847127]

def shaCh (e f g : Nat) : Nat := (e &&& f) ^^^ (not64 e &&& g)

def shaMaj (a b c : Nat) : Nat := (a &&& b) ^^^ (a &&& c) ^^^ (b &&& c)

def bigSigma0 (x : Nat) : Nat := rotr 28 x ^^^ rotr 34 x ^^^ rotr 39 x

def bigSigma1 (x : Nat) : Nat := rotr 14 x ^^^ rotr 18 x ^^^ rotr 41 x

def smallSigma0 (x : Nat) : Nat := rotr 1 x ^^^ rotr 8 x ^^^ (x >>> 7)

def smallSigma1 (x : Nat) : Nat := rotr 19 x ^^^ rotr 61 x ^^^ (x >>> 6)

/-!
The hash state — the eight 64-bit chaining words a..h of FIPS 180-4 —
is carried packed into one natural number, word `a` in the most
significant position (bits 448..511) and `h` in the least (bits 0..63),
so every intermediate state is a single numeral.
-/

/-- One step of the message schedule: prepend
`σ1(W[t-2]) + W[t-7] + σ0(W[t-15]) + W[t-16]` to the reversed word list. -/
def scheduleStep (wrev : List Nat) : List Nat :=
  w64 (smallSigma1 (wrev.getD 1 0) + wrev.getD 6 0 +
    smallSigma0 (wrev.getD 14 0) + wrev.getD 15 0) :: wrev

/-- Iterate `scheduleStep`, then restore the original word order. -/
def scheduleGo : Nat → List Nat → List Nat
  | 0, wrev => wrev.reverse
  | fuel + 1, wrev => scheduleGo fuel (scheduleStep wrev)

/-- Message schedule: extend the 16 block words to 80. -/
def shaSchedule (ws : List Nat) : List Nat := scheduleGo 64 ws.reverse

/-- One SHA-512 compression round on the packed state, given the round
constant `k` and the schedule word `w`. -/
def shaRound (k w st : Nat) : Nat :=
  let a := w64 (st >>> 448)
  let b := w64 (st >>> 384)
  let c := w64 (st >>> 320)
  let d := w64 (st >>> 256)
  let e := w64 (st >>> 192)
  let f := w64 (st >>> 128)
  let g := w64 (st >>> 64)
  let h := w64 st
  let t1 := w64 (h + bigSigma1 e + shaCh e f g + k + w)
  let t2 := w64 (bigSigma0 a + shaMaj a b c)
  w64 (t1 + t2) <<< 448 + a <<< 384 + b <<< 320 + c <<< 256 +
    w64 (d + t1) <<< 192 + e <<< 128 + f <<< 64 + g

/-- Word-wise modular addition of two packed states. -/
def addWords (x y : Nat) : Nat :=
  (List.range 8).foldl
    (fun acc i => acc + w64 (w64 (x >>> (64 * i)) + w64 (y >>> (64 * i))) <<< (64 * i)) 0

/-- Compress one 128-byte block into the packed chaining state. -/
def shaBlock (st : Nat) (block : List Nat) : Nat :=
  let ws := (chunks 8 block).map fromBytesBE
  let kw := shaK.zip (shaSchedule ws)
  addWords st (kw.foldl (fun s p => seqNat s (shaRound p.1 p.2 s)) st)

/-- SHA-512 padding: 0x80, zeros to 112 mod 128, then the bit length in
16 big-endian bytes. -/
def shaPad (msg : List Nat) : List Nat :=
  msg ++ [128] ++ List.replicate ((239 - msg.length % 128) % 128) 0 ++
    toBytesBE 16 (8 * msg.length)

/-- SHA-384 initial chaining values (FIPS 180-4 §5.3.4), packed. -/
def sha384Init : Nat :=
  10670356209170577901630341153797847993280280289093565113854922847643739993775907799962958695019904747855913655374774097865532922075654589739096827842154404

/-- SHA-384 digest of a byte list: SHA-512 with its own IV, truncated to
the first six words (48 bytes, the top 384 bits of the packed state). -/
def sha384 (msg : List Nat) : List Nat :=
  toBytesBE 48 (((chunks 128 (shaPad msg)).foldl shaBlock sha384Init) >>> 128)

/-- HMAC-SHA384 (RFC 2104) over bytes, block size 128. -/
def hmacSha384 (key msg : List Nat) : List Nat :=
  let k0 := if 128 < key.length then sha384 key else key
  let k := k0 ++ List.replicate (128 - k0.length) 0
  sha384 (k.map (fun b => b ^^^ 92) ++ sha384 (k.map (fun b => b ^^^ 54) ++ msg))

/-- What `crypto.createHmac('sha384', secret).update(message).digest('hex')`
returns: the HMAC-SHA384 of the UTF-8 message under the UTF-8 secret,
rendered as lowercase hex. -/
def hmacSha384Hex (secret message : String) : String :=
  bytesToHex (hmacSha384 (utf8Encode secret) (utf8Encode message))

/-! ### JSON values and `JSON.stringify`

JSON request bodies are modelled by `Json`; numbers are carried as
integers (every numeric literal the client ever serializes is integral).
`stringify` mirrors `JSON.stringify`: object fields in insertion order,
no whitespace, strings escaped. -/

mutual
inductive Json where
  | null
  | bool (b : Bool)
  | num (n : Int)
  | str (s : String)
  | arr (elems : JsonList)
  | obj (fields : JsonFields)
inductive JsonList where
  | nil
  | cons (head : Json) (tail : JsonList)
inductive JsonFields where
  | nil
  | cons (key : String) (val : Json) (tail : JsonFields)
end

/-- Build a `JsonFields` spine from a Lean list (object-literal helper). -/
def JsonFields.ofList : List (String × Json) → JsonFields
  | [] => .nil
  | (k, v) :: rest => .cons k v (JsonFields.ofList rest)

/-- Object literal helper mirroring a JS `{...}` expression. -/
def Json.mkObj (fields : List (String × Json)) : Json := .obj (JsonFields.ofList fields)

def JsonList.ofList : List Json → JsonList
  | [] => .nil
  | j :: rest => .cons j (JsonList.ofList rest)

def Json.mkArr (elems : List Json) : Json := .arr (JsonList.ofList elems)

/-- `JSON.stringify` escaping for one character of a string literal. -/
def jsonEscapeChar (c : Char) : List Char :=
  if c = '"' then ['\\', '"']
  else if c = '\\' then ['\\', '\\']
  else if c = (Char.ofNat 10) then ['\\', 'n']
  else if c = (Char.ofNat 13) then ['\\', 'r']
  else if c = (Char.ofNat 9) then ['\\', 't']
  else if c = (Char.ofNat 8) then ['\\', 'b']
  else if c = (Char.ofNat 12) then ['\\', 'f']
  else if c.toNat < 32 then
    ['\\', 'u', '0', '0', hexDigit (c.toNat / 16), hexDigit (c.toNat % 16)]
  else [c]

def jsonQuote (s : String) : String :=
  "\"" ++ String.mk (s.data.foldr (fun c acc => jsonEscapeChar c ++ acc) []) ++ "\""

mutual
/-- `JSON.stringify` on the modelled values: object fields in insertion
order, comma separated, no whitespace. -/
def stringify : Json → String
  | .null => "null"
  | .bool true => "true"
  | .bool false => "false"
  | .num n => toString n
  | .str s => jsonQuote s
  | .arr elems => "[" ++ stringifyElems elems ++ "]"
  | .obj fields => "\x7b" ++ stringifyFields fields ++ "\x7d"
def stringifyElems : JsonList → String
  | .nil => ""
  | .cons j .nil => stringify j
  | .cons j (.cons j2 t) => stringify j ++ "," ++ stringifyElems (.cons j2 t)
def stringifyFields : JsonFields → String
  | .nil => ""
  | .cons k v .nil => jsonQuote k ++ ":" ++ stringify v
  | .cons k v (.cons k2 v2 t) =>
      jsonQuote k ++ ":" ++ stringify v ++ "," ++ stringifyFields (.cons k2 v2 t)
end

/-- Field lookup on a JSON object (JS property access). -/
def jsonFieldsGet : JsonFields → String → Option Json
  | .nil, _ => none
  | .cons k v t, key => if k = key then some v else jsonFieldsGet t key

def Json.getField : Json → String → Option Json
  | .obj fields, key => jsonFieldsGet fields key
  | _, _ => none

/-- Overwrite-or-append a field on a JSON object; on non-objects this is
the identity (a modelling artifact, never hit by the client's values). -/
def jsonFieldsSet : JsonFields → String → Json → JsonFields
  | .nil, key, v => .cons key v .nil
  | .cons k w t, key, v =>
      if k = key then .cons k v t else .cons k w (jsonFieldsSet t key v)

def Json.setField : Json → String → Json → Json
  | .obj fields, key, v => .obj (jsonFieldsSet fields key v)
  | j, _, _ => j

/-! ### Base64 (what `new Buffer(s).toString('base64')` produces) -/

def base64Char (n : Nat) : Char :=
  if n < 26 then Char.ofNat (65 + n)
  else if n < 52 then Char.ofNat (97 + (n - 26))
  else if n < 62 then Char.ofNat (48 + (n - 52))
  else if n = 62 then '+'
  else '/'

/-- Encode one group of up to three bytes. -/
def base64Group : List Nat → List Char
  | [a, b, c] =>
      [base64Char (a / 4), base64Char (a % 4 * 16 + b / 16),
       base64Char (b % 16 * 4 + c / 64), base64Char (c % 64)]
  | [a, b] =>
      [base64Char (a / 4), base64Char (a % 4 * 16 + b / 16),
       base64Char (b % 16 * 4), '=']
  | [a] => [base64Char (a / 4), base64Char (a % 4 * 16), '=', '=']
  | _ => []

def base64Encode (bs : List Nat) : String :=
  String.mk ((chunks 3 bs).foldr (fun g acc => base64Group g ++ acc) [])

/-! ### Strings: substring search and the path component of a URL -/

def listStartsWith [DecidableEq α] : List α → List α → Bool
  | [], _ => true
  | _ :: _, [] => false
  | p :: ps, c :: cs => p = c && listStartsWith ps cs

/-- `String.prototype.indexOf`: index of the first occurrence of `pat` in
`s`, `-1` if absent. -/
def jsIndexOf (s pat : String) : Int :=
  go s.data 0
where
  go : List Char → Nat → Int
    | [], i => if pat.data = [] then (i : Int) else -1
    | c :: cs, i =>
        if listStartsWith pat.data (c :: cs) then (i : Int) else go cs (i + 1)

/-- The `.path` of Node's legacy `url.parse` applied to the full URL:
everything from the first `/` after the `://` authority, query string
included, fragment excluded.  When the URL has no `://`, the legacy
parser treats the whole input as the path; when the authority is not
followed by `/`, `.path` is `null`, which JS string concatenation then
renders as `"null"` — this function returns that rendering directly. -/
def urlPathStr (u : String) : String :=
  match afterMarker u.data with
  | some rest =>
      match rest.dropWhile (fun c => c ≠ '/') with
      | [] => "null"
      | p => String.mk (p.takeWhile (fun c => c ≠ '#'))
  | none => String.mk (u.data.takeWhile (fun c => c ≠ '#'))
where
  /-- The suffix after the first occurrence of `"://"`. -/
  afterMarker : List Char → Option (List Char)
    | [] => none
    | c :: cs =>
        if listStartsWith [':', '/', '/'] (c :: cs) then some ((c :: cs).drop 3)
        else afterMarker cs

/-- lodash `_.capitalize`: first character upper-cased, the rest lower-cased. -/
def jsCapitalize (s : String) : String :=
  match s.data with
  | [] => ""
  | c :: cs => String.mk (c.toUpper :: cs.map Char.toLower)

/-- lodash `_.lowerCase` as used on the single-word order-type tokens the
client passes (`Bid`, `Ask`, ...): character-wise lower-casing. (The full
lodash function additionally splits camel-case into space-separated
words; on the one-word inputs used here the two coincide.) -/
def jsLowerCase (s : String) : String := String.mk (s.data.map Char.toLower)

/-- lodash `_.toUpper`: character-wise upper-casing. -/
def jsToUpper (s : String) : String := String.mk (s.data.map Char.toUpper)

/-! ### The client and the signing scheme
(`src/index.js` lines 13–66 and `src/unnamed/part_002` lines 15–68; the
two files' constructor, `_getFullUrl`, `_getHmac` and `_getAuthHeaders`
are line-for-line identical up to `var`/`const` and the default API URL). -/

structure Client where
  api : String := "https://www.surbtc.com/api/v2"
  key : String := ""
  secret : String := ""
  headers : List (String × String) :=
    [("Accept", "application/json"), ("Content-Type", "application/json")]

def Client.getFullUrl (c : Client) (path : String) : String := c.api ++ path

/-- The canonical message `Client.prototype._getHmac` builds before
hashing: `GET {path} {nonce}` for GET, `{method} {path} {base64 json} {nonce}`
for POST/PUT, nothing for any other method (the JS falls through to
`console.error` and returns `undefined`). -/
def signedMessage (c : Client) (nonce : Nat) (method path : String) (data : Json) :
    Option String :=
  let fullPath := urlPathStr (c.getFullUrl path)
  if method = "GET" then
    some ("GET" ++ " " ++ fullPath ++ " " ++ toString nonce)
  else if method = "POST" ∨ method = "PUT" then
    let encodedData := base64Encode (utf8Encode (stringify data))
    some (method ++ " " ++ fullPath ++ " " ++ encodedData ++ " " ++ toString nonce)
  else none

/-- `Client.prototype._getHmac`: HMAC-SHA384 of the canonical message
keyed by the secret, hex-encoded; `none` models the `undefined` returned
for unsupported methods. -/
def Client.getHmac (c : Client) (nonce : Nat) (method path : String) (data : Json) :
    Option String :=
  (signedMessage c nonce method path data).map (hmacSha384Hex c.secret)

/-- A JS header value: the API key and signature are strings, the nonce a
number, and the signature slot is `undefined` when `_getHmac` returned
`undefined`. -/
inductive HVal where
  | str (s : String)
  | num (n : Nat)
  | jsUndefined
deriving DecidableEq

def optHVal : Option String → HVal
  | some s => .str s
  | none => .jsUndefined

/-- JS object property assignment on an association-list model: overwrite
in place if the key exists, append otherwise. -/
def jsSet (o : List (String × β)) (k : String) (v : β) : List (String × β) :=
  if o.any (fun p => p.1 = k) then o.map (fun p => if p.1 = k then (k, v) else p)
  else o ++ [(k, v)]

/-- JS object property read: the value at the first (hence, keys being
unique, the only) binding of the key, `undefined` otherwise. -/
def jsGet : List (String × β) → String → Option β
  | [], _ => none
  | p :: rest, k => if p.1 = k then some p.2 else jsGet rest k

def jsKeys (o : List (String × β)) : List String := o.map Prod.fst

/-- `Client.prototype._getAuthHeaders`: the three `X-SBTC-*` auth headers
built from a nonce minted once per call (`new Date().getTime()`, passed
in as `now`), then every base header copied over them. -/
def Client.getAuthHeaders (c : Client) (now : Nat) (method path : String) (data : Json) :
    List (String × HVal) :=
  let authHeaders : List (String × HVal) :=
    [("X-SBTC-APIKEY", .str c.key),
     ("X-SBTC-NONCE", .num now),
     ("X-SBTC-SIGNATURE", optHVal (c.getHmac now method path data))]
  c.headers.foldl (fun acc p => jsSet acc p.1 (.str p.2)) authHeaders

/-! ### Requests, transport, response handling -/

inductive HttpMethod where
  | get
  | post
  | put
deriving DecidableEq

structure NetReq where
  method : HttpMethod
  url : String
  headers : List (String × HVal)
  body : Option Json

/-- Modelled from the spec: `src/lib/response_handler.js` is required by
both clients but absent from `src/`. Per spec §4.3/§7 every error is a
failure envelope tagged with an error kind. -/
structure ErrEnvelope where
  success : Bool
  errorType : String
deriving DecidableEq

/-- Modelled from the spec: `responseHandler.invalidRequest(err, kind, null)`
attaches to `err` a failure envelope tagged with the given error kind,
before any I/O (spec §4.3: short-circuit with a fixed error kind). -/
def invalidRequestJson (kind : String) : ErrEnvelope := ⟨false, kind⟩

/-- The transport oracle: superagent's `.end` outcome for a request,
either a transport-level error (already shaped by
`responseHandler.errorSet` into the envelope the callback forwards) or
the parsed response body. -/
def Transport := NetReq → Except ErrEnvelope Json

/-- Modelled from the spec: `responseHandler.success(response, body)` marks
success and passes the parsed body through unchanged as the call's result
(spec §4.3); the facades read fields of the body directly off
`response.json`, so the envelope is the body with `success` set. -/
def successJson (body : Json) : Json := body.setField "success" (.bool true)

/-- What every facade returns: the `(error, result)` callback pair plus
the list of HTTP requests the call issued. -/
structure Outcome (ε α : Type) where
  error : Option ε
  result : Option α
  requests : List NetReq

/-- The early return every auth-requiring facade performs when the client
holds no secret. -/
def apiKeyRequired {α : Type} : Outcome ErrEnvelope α :=
  ⟨some (invalidRequestJson "InvalidRequest:ApiKeyRequired"), none, []⟩

/-- The shared `.end` handler of the plain facades: transport error to the
error channel, success body through `responseHandler.success` to the
result channel. -/
def dispatch (tr : Transport) (req : NetReq) : Outcome ErrEnvelope Json :=
  match tr req with
  | .error e => ⟨some e, none, [req]⟩
  | .ok body => ⟨none, some (successJson body), [req]⟩

/-! ### Facade operations (`src/unnamed/part_002`; where `src/index.js`
has the same method its body is identical except as noted).  Each model
takes the transport oracle and the clock reading `now` that
`_getAuthHeaders` would mint via `new Date().getTime()`. -/

/-- `Client.prototype.getBalances` (part_002 lines 86–111; the index.js
variant always appends the currency). `currency : Option String` models
the JS truthiness test `if (currency)`. -/
def Client.getBalances (c : Client) (currency : Option String) (tr : Transport)
    (now : Nat) : Outcome ErrEnvelope Json :=
  let path := match currency with
    | some cur => "/balances" ++ "/" ++ cur
    | none => "/balances"
  if c.secret = "" then apiKeyRequired
  else
    dispatch tr ⟨.get, c.getFullUrl path, c.getAuthHeaders now "GET" path .null, none⟩

/-- `Client.prototype.getExchangeFee` (part_002 lines 113–144).
`marketOrder : Option Bool` models the optional third argument: `none`
covers both the absent case and the callback-in-that-position case
(`_.isFunction`), where the path is left unchanged. -/
def Client.getExchangeFee (c : Client) (marketId type : String)
    (marketOrder : Option Bool) (tr : Transport) (now : Nat) : Outcome ErrEnvelope Json :=
  let path := "/markets/" ++ marketId ++ "/fee_percentage?type=" ++ jsCapitalize type
  if c.secret = "" then apiKeyRequired
  else
    let path1 := match marketOrder with
      | some true => path ++ "&market_order=true"
      | _ => path
    dispatch tr ⟨.get, c.getFullUrl path1, c.getAuthHeaders now "GET" path1 .null, none⟩

/-- `Client.prototype.getQuotation` (part_002 lines 166–198). -/
def Client.getQuotation (c : Client) (marketId type : String) (amount : Int)
    (tr : Transport) (now : Nat) : Outcome ErrEnvelope Json :=
  let path := "/markets/" ++ marketId ++ "/quotations"
  if c.secret = "" then apiKeyRequired
  else
    let data := Json.mkObj [("quotation", Json.mkObj
      [("type", .str (jsLowerCase type)), ("reverse", .bool false), ("amount", .num amount)])]
    dispatch tr ⟨.post, c.getFullUrl path, c.getAuthHeaders now "POST" path data, some data⟩

/-- `Client.prototype.getReverseQuotation` (part_002 lines 200–232). -/
def Client.getReverseQuotation (c : Client) (marketId type : String) (amount : Int)
    (tr : Transport) (now : Nat) : Outcome ErrEnvelope Json :=
  let path := "/markets/" ++ marketId ++ "/quotations"
  if c.secret = "" then apiKeyRequired
  else
    let data := Json.mkObj [("quotation", Json.mkObj
      [("type", .str (jsLowerCase type)), ("reverse", .bool true), ("amount", .num amount)])]
    dispatch tr ⟨.post, c.getFullUrl path, c.getAuthHeaders now "POST" path data, some data⟩

/-- `Client.prototype.createOrder` (part_002 lines 234–257). -/
def Client.createOrder (c : Client) (marketId : String) (order : Json)
    (tr : Transport) (now : Nat) : Outcome ErrEnvelope Json :=
  let path := "/markets/" ++ marketId ++ "/orders"
  if c.secret = "" then apiKeyRequired
  else
    dispatch tr ⟨.post, c.getFullUrl path, c.getAuthHeaders now "POST" path order, some order⟩

/-- `Client.prototype.getOrdersRaw` (part_002 lines 324–349). `page = 0`
is falsy in `if (page)`, so no `?page=` query is appended. -/
def Client.getOrdersRaw (c : Client) (marketId : String) (page : Nat)
    (tr : Transport) (now : Nat) : Outcome ErrEnvelope Json :=
  let path := "/markets/" ++ marketId ++ "/orders"
  if c.secret = "" then apiKeyRequired
  else
    let path1 := if page ≠ 0 then path ++ "?page=" ++ toString page else path
    dispatch tr ⟨.get, c.getFullUrl path1, c.getAuthHeaders now "GET" path1 .null, none⟩

/-- `Client.prototype.getOrderId` (part_002 lines 377–398). -/
def Client.getOrderId (c : Client) (orderId : String) (tr : Transport)
    (now : Nat) : Outcome ErrEnvelope Json :=
  let path := "/orders/" ++ orderId
  if c.secret = "" then apiKeyRequired
  else
    dispatch tr ⟨.get, c.getFullUrl path, c.getAuthHeaders now "GET" path .null, none⟩

/-! ### cancelOrderId, both implementations -/

/-- An order as the cancel endpoint returns it. -/
structure OrderRec where
  id : String
  state : String
deriving DecidableEq

/-- `response.json` after `responseHandler.success` on the cancel
response: success mark plus the returned order, with the `error_type`
slot the facade may later set. -/
structure CancelEnv where
  success : Bool
  error_type : Option String
  order : OrderRec
deriving DecidableEq

/-- `Client.prototype.cancelOrderId`, part_002 lines 400–429: a PUT of
`{state: 'canceling'}` signed as a PUT over that body.  Even on transport
success, a returned state other than `canceling`/`canceled` is overridden
to a failure envelope delivered on the error channel. -/
def Client.cancelOrderId (c : Client) (orderId : String)
    (tr : NetReq → Except ErrEnvelope OrderRec) (now : Nat) :
    Outcome (ErrEnvelope ⊕ CancelEnv) CancelEnv :=
  let path := "/orders/" ++ orderId
  if c.secret = "" then
    ⟨some (.inl (invalidRequestJson "InvalidRequest:ApiKeyRequired")), none, []⟩
  else
    let data := Json.mkObj [("state", .str "canceling")]
    let req : NetReq := ⟨.put, c.getFullUrl path, c.getAuthHeaders now "PUT" path data, some data⟩
    match tr req with
    | .error e => ⟨some (.inl e), none, [req]⟩
    | .ok ord =>
      let json : CancelEnv := ⟨true, none, ord⟩
      if ord.state ≠ "canceling" ∧ ord.state ≠ "canceled" then
        ⟨some (.inr ⟨false, some "order_not_valid_for_canceling", json.order⟩), none, [req]⟩
      else ⟨none, some json, [req]⟩

/-- `Client.prototype.cancelOrderId`, src/index.js lines 393–420: same
flow, but the auth headers are built by `_getAuthHeaders('GET', path)` —
the signature covers the GET-shaped message with no body — while the
dispatched request is still a PUT carrying `{state: 'canceling'}`. -/
def Client.cancelOrderIdV1 (c : Client) (orderId : String)
    (tr : NetReq → Except ErrEnvelope OrderRec) (now : Nat) :
    Outcome (ErrEnvelope ⊕ CancelEnv) CancelEnv :=
  let path := "/orders/" ++ orderId
  if c.secret = "" then
    ⟨some (.inl (invalidRequestJson "InvalidRequest:ApiKeyRequired")), none, []⟩
  else
    let req : NetReq := ⟨.put, c.getFullUrl path, c.getAuthHeaders now "GET" path .null,
      some (Json.mkObj [("state", .str "canceling")])⟩
    match tr req with
    | .error e => ⟨some (.inl e), none, [req]⟩
    | .ok ord =>
      let json : CancelEnv := ⟨true, none, ord⟩
      if ord.state ≠ "canceling" ∧ ord.state ≠ "canceled" then
        ⟨some (.inr ⟨false, some "order_not_valid_for_canceling", json.order⟩), none, [req]⟩
      else ⟨none, some json, [req]⟩

/-! ### Bank accounts, withdrawals, deposits (`src/unnamed/part_002` only) -/

structure Bank where
  name : String
  id : Int

structure BankAccountOpts where
  email : String
  phone : String
  bank_currency : String
  bank_name : String
  bank_account_holder_id : String
  bank_account_holder_name : String
  bank_account_number : String
  bank_account_type : String

/-- `Client.prototype.registerBankAccount` (part_002 lines 444–480).
`banks` stands for the `lib/banks` Colombia table (data required from
outside `src/`).  A `bank_name` absent from the table makes the JS throw
(`.id` of `undefined`) before anything else; that is the `none` case. -/
def Client.registerBankAccount (c : Client) (banks : List Bank)
    (opts : BankAccountOpts) (tr : Transport) (now : Nat) :
    Option (Outcome ErrEnvelope Json) :=
  let currency := jsToUpper opts.bank_currency
  let path := "/fiat_accounts/" ++ currency
  match banks.find? (fun b => b.name = opts.bank_name) with
  | none => none
  | some bank =>
    let surbtcOpts := Json.mkObj
      [("email", .str opts.email),
       ("phone", .str opts.phone),
       ("document_number", .str opts.bank_account_holder_id),
       ("full_name", .str opts.bank_account_holder_name),
       ("account_number", .str opts.bank_account_number),
       ("account_type", .str opts.bank_account_type),
       ("bank_id", .num bank.id)]
    some (if c.secret = "" then apiKeyRequired
      else dispatch tr
        ⟨.put, c.getFullUrl path, c.getAuthHeaders now "PUT" path surbtcOpts, some surbtcOpts⟩)

structure WithdrawalOpts where
  currency : String
  target_address : String
  amount : Int

/-- Modelled from the bitcoin-math package (external dependency, not part
of this repository): `Number.prototype.toSatoshi`, BTC to satoshis, a
multiplication by 10^8 (done in JS floating point; exact integers here). -/
def toSatoshi (btc : Int) : Int := btc * 100000000

/-- The address-rejection test of `requestWithdrawal` (part_002 lines
495–496): `'stg'` strictly inside the base URL demands a valid testnet
address, `'stg'` absent demands a valid prod address; an occurrence at
index 0 falsifies both guards and skips validation. -/
def btcAddressRejected (c : Client) (validate : String → String → Bool)
    (addr : String) : Prop :=
  (0 < jsIndexOf c.api "stg" ∧ ¬ validate addr "testnet") ∨
  (jsIndexOf c.api "stg" < 0 ∧ ¬ validate addr "prod")

instance (c : Client) (validate : String → String → Bool) (addr : String) :
    Decidable (btcAddressRejected c validate addr) := by
  unfold btcAddressRejected
  infer_instance

/-- `Client.prototype.requestWithdrawal` (part_002 lines 482–529).
`validate addr network` stands for the external `bitcoin-address`
package's `validate`; the network string is `'testnet'` or `'prod'`
exactly as the source passes it.  For BTC the address check — driven by
where `'stg'` occurs in the API base URL — runs BEFORE the credential
guard; amounts are scaled per currency. -/
def Client.requestWithdrawal (c : Client) (validate : String → String → Bool)
    (opts : WithdrawalOpts) (tr : Transport) (now : Nat) : Outcome ErrEnvelope Json :=
  let path := "/withdrawals"
  let currency := jsToUpper opts.currency
  let send := fun (withdrawalOpts : Json) =>
    if c.secret = "" then apiKeyRequired
    else dispatch tr ⟨.post, c.getFullUrl path,
      c.getAuthHeaders now "POST" path withdrawalOpts, some withdrawalOpts⟩
  if currency = "BTC" then
    if btcAddressRejected c validate opts.target_address then
      ⟨some (invalidRequestJson "InvalidRequest:InvalidBitcoinAddress"), none, []⟩
    else
      send (Json.mkObj
        [("withdrawal_data", Json.mkObj [("target_address", .str opts.target_address)]),
         ("amount", .num (toSatoshi opts.amount)),
         ("currency", .str currency)])
  else if currency = "CLP" ∨ currency = "COP" then
    send (Json.mkObj
      [("withdrawal_data", Json.mkObj []),
       ("amount", .num (opts.amount * 100)),
       ("currency", .str currency)])
  else
    send (Json.mkObj
      [("withdrawal_data", Json.mkObj []),
       ("amount", .num 0),
       ("currency", .str currency)])

structure DepositOpts where
  currency : String
  amount : Int

/-- `Client.prototype.registerDeposit` (part_002 lines 531–558). -/
def Client.registerDeposit (c : Client) (opts : DepositOpts) (tr : Transport)
    (now : Nat) : Outcome ErrEnvelope Json :=
  let path := "/deposits"
  let depositOpts := Json.mkObj
    [("amount", .num (opts.amount * 100)),
     ("currency", .str (jsToUpper opts.currency))]
  if c.secret = "" then apiKeyRequired
  else
    dispatch tr ⟨.post, c.getFullUrl path,
      c.getAuthHeaders now "POST" path depositOpts, some depositOpts⟩

/-! ### The order pager
(`Client.prototype._getOrderPages`, identical in src/index.js lines
252–283 and part_002 lines 259–290; `pollOrders` ties the recursion knot
by passing `_getOrderPages` to itself as `loopFunction`.)

The listing envelope a `getOrdersRaw` round trip yields is modelled
structurally.  Meta fields are `Option Nat`: `none` stands for an absent
property, whose `_.toNumber` is `NaN` and which JS `===`/`<` comparisons
against numbers always falsify — exactly what happens after the filter
step replaces `meta` with a bare `{total_count}` object.  The page
fetches the pager performs through `getOrdersRaw` are abstracted as the
oracle `fetch : Nat → Except ErrEnvelope OrdersEnv` (page number to
outcome), and the pager result records the pages it requested.  The
`state` filter argument follows JS truthiness: `""` plays the role of the
falsy `false` that `getOrders` passes. -/

structure OrdersMeta where
  current_page : Option Nat
  total_pages : Option Nat
  total_count : Option Nat
deriving DecidableEq

structure OrdersEnv where
  success : Bool
  orders : List OrderRec
  meta : OrdersMeta
deriving DecidableEq

/-- JS strict equality between the pager's numeric `page` local and the
`total_pages` property (`NaN`/`undefined` never compare equal). -/
def jsNumEq : Option Nat → Option Nat → Bool
  | some a, some b => a = b
  | _, _ => false

/-- JS `<` between the `page` local and the `total_pages` property
(comparisons involving `NaN`/`undefined` are false). -/
def jsNumLt : Option Nat → Option Nat → Bool
  | some a, some b => a < b
  | _, _ => false

/-- `Client.prototype._getOrderPages`.  The first argument of the result
pair is the callback outcome, the second the list of page numbers fetched
by the loop.  Recursion is fuel-driven (`none` = fuel exhausted; any fuel
above the remaining page count is enough, as the theorems show). -/
def getOrderPages (fetch : Nat → Except ErrEnvelope OrdersEnv) (state : String) :
    Nat → OrdersEnv → Option (Except ErrEnvelope OrdersEnv × List Nat)
  | 0, _ => none
  | fuel + 1, orders =>
    let page := orders.meta.current_page
    let orders1 :=
      if orders.success ∧ state ≠ "" then
        let filtered := orders.orders.filter (fun o => o.state = state)
        if jsNumEq page orders.meta.total_pages then
          { orders with orders := filtered, meta := ⟨none, none, some filtered.length⟩ }
        else { orders with orders := filtered }
      else orders
    if orders1.success ∧ jsNumLt page orders1.meta.total_pages then
      match page with
      | none => none
      | some p =>
        match fetch (p + 1) with
        | .error e => some (.error e, [p + 1])
        | .ok response =>
          let orders2 : OrdersEnv :=
            ⟨orders1.success, orders1.orders ++ response.orders,
             ⟨some (p + 1), orders1.meta.total_pages, orders1.meta.total_count⟩⟩
          match getOrderPages fetch state fuel orders2 with
          | none => none
          | some (r, pages) => some (r, (p + 1) :: pages)
    else some (.ok orders1, [])

/-- `Client.prototype.getOrders` / `getOrdersByState` (index.js lines
344–368): `getOrdersRaw(marketId, 0, ...)` — recorded as page request `0`,
the query-less request the server answers with its first page — then
`pollOrders`.  The waterfall forwards a first-step error directly. -/
def getOrders (fetch : Nat → Except ErrEnvelope OrdersEnv) (state : String)
    (fuel : Nat) : Option (Except ErrEnvelope OrdersEnv × List Nat) :=
  match fetch 0 with
  | .error e => some (.error e, [0])
  | .ok env =>
    match getOrderPages fetch state fuel env with
    | none => none
    | some (r, pages) => some (r, 0 :: pages)

/-! ### The order-state poller
(`Client.prototype._getOrderState`, identical in src/index.js lines
285–301 and part_002 lines 292–308; `pollOrderState` ties the knot.)

`fetch` abstracts the `getOrderId` round trip; the result records the
number of refetches performed and the list of `setTimeout` delays (in
ms) taken before re-checking. -/

structure OrderEnv where
  success : Bool
  order : OrderRec
deriving DecidableEq

/-- `Client.prototype._getOrderState`: refetch-and-wait until the
envelope is failed or the order reaches `status`. -/
def getOrderState (fetch : String → Except ErrEnvelope OrderEnv) (status : String) :
    Nat → OrderEnv → Option (Except ErrEnvelope OrderEnv × Nat × List Nat)
  | 0, _ => none
  | fuel + 1, order =>
    if order.success ∧ order.order.state ≠ status then
      match fetch order.order.id with
      | .error e => some (.error e, 1, [])
      | .ok response =>
        match getOrderState fetch status fuel response with
        | none => none
        | some (r, fetches, delays) => some (r, fetches + 1, 500 :: delays)
    else some (.ok order, 0, [])

/-- `Client.prototype.pollOrderState` (index.js lines 310–315): the
public wrapper is `_getOrderState` applied to itself as `loopFunction`. -/
def pollOrderState (fetch : String → Except ErrEnvelope OrderEnv) (status : String)
    (fuel : Nat) (order : OrderEnv) : Option (Except ErrEnvelope OrderEnv × Nat × List Nat) :=
  getOrderState fetch status fuel order

/-! ## Helper lemmas on the JS object model -/

theorem any_key_iff_mem {β : Type} (o : List (String × β)) (k : String) :
    (o.any (fun p => p.1 = k) = true) ↔ k ∈ jsKeys o := by
  induction o with
  | nil => simp [jsKeys]
  | cons p rest ih =>
      simp only [List.any_cons, Bool.or_eq_true, decide_eq_true_eq, jsKeys, List.map_cons,
        List.mem_cons] at *
      constructor
      · rintro (h | h)
        · exact Or.inl h.symm
        · exact Or.inr (ih.mp h)
      · rintro (h | h)
        · exact Or.inl h.symm
        · exact Or.inr (ih.mpr h)

theorem jsGet_overwrite {β : Type} (k : String) (v : β) :
    ∀ o : List (String × β), o.any (fun p => p.1 = k) = true →
      jsGet (o.map (fun p => if p.1 = k then (k, v) else p)) k = some v
  | [], h => by simp at h
  | p :: rest, h => by
      by_cases hp : p.1 = k
      · simp [jsGet, hp]
      · have h' : rest.any (fun p => p.1 = k) = true := by
          simp only [List.any_cons, Bool.or_eq_true, decide_eq_true_eq] at h
          exact h.resolve_left hp
        simpa [jsGet, hp] using jsGet_overwrite k v rest h'

theorem jsGet_append_last {β : Type} (k : String) (v : β) :
    ∀ o : List (String × β), o.any (fun p => p.1 = k) = false →
      jsGet (o ++ [(k, v)]) k = some v
  | [], _ => by simp [jsGet]
  | p :: rest, h => by
      simp only [List.any_cons, Bool.or_eq_false_iff, decide_eq_false_iff_not] at h
      simpa [jsGet, h.1] using jsGet_append_last k v rest (by simp [h.2])

theorem jsGet_jsSet_self {β : Type} (o : List (String × β)) (k : String) (v : β) :
    jsGet (jsSet o k v) k = some v := by
  unfold jsSet
  by_cases h : o.any (fun p => p.1 = k) = true
  · simpa [h] using jsGet_overwrite k v o h
  · simpa [h] using jsGet_append_last k v o (Bool.eq_false_iff.mpr h)

theorem jsGet_map_overwrite_ne {β : Type} (k r : String) (v : β) (hne : k ≠ r) :
    ∀ o : List (String × β),
      jsGet (o.map (fun p => if p.1 = k then (k, v) else p)) r = jsGet o r
  | [] => rfl
  | p :: rest => by
      by_cases hp : p.1 = k
      · have hpr : ¬ p.1 = r := fun hc => hne (hp ▸ hc)
        simpa [jsGet, hp, hpr, Ne.symm, hne] using jsGet_map_overwrite_ne k r v hne rest
      · by_cases hpr : p.1 = r
        · have hrk : ¬ r = k := fun hc => hne hc.symm
          simp [jsGet, hp, hpr, hrk]
        · simpa [jsGet, hp, hpr] using jsGet_map_overwrite_ne k r v hne rest

theorem jsGet_append_last_ne {β : Type} (k r : String) (v : β) (hne : k ≠ r) :
    ∀ o : List (String × β), jsGet (o ++ [(k, v)]) r = jsGet o r
  | [] => by simp [jsGet, hne]
  | p :: rest => by
      by_cases hpr : p.1 = r
      · simp [jsGet, hpr]
      · simpa [jsGet, hpr] using jsGet_append_last_ne k r v hne rest

theorem jsGet_jsSet_ne {β : Type} (o : List (String × β)) (k r : String) (v : β)
    (hne : k ≠ r) : jsGet (jsSet o k v) r = jsGet o r := by
  unfold jsSet
  by_cases h : o.any (fun p => p.1 = k) = true
  · simpa [h] using jsGet_map_overwrite_ne k r v hne o
  · simpa [h] using jsGet_append_last_ne k r v hne o

theorem jsKeys_jsSet {β : Type} (o : List (String × β)) (k : String) (v : β) :
    jsKeys (jsSet o k v) =
      if o.any (fun p => p.1 = k) = true then jsKeys o else jsKeys o ++ [k] := by
  unfold jsSet
  by_cases h : o.any (fun p => p.1 = k) = true
  · simp only [h, if_true, jsKeys, List.map_map]
    refine List.map_congr_left (fun p _ => ?_)
    by_cases hp : p.1 = k <;> simp [hp]
  · simp [h, jsKeys]

/-- Copying base headers never disturbs a key none of them uses. -/
theorem foldHeaders_jsGet_fresh :
    ∀ (hs : List (String × String)) (init : List (String × HVal)) (r : String),
      (∀ p ∈ hs, p.1 ≠ r) →
      jsGet (hs.foldl (fun acc p => jsSet acc p.1 (.str p.2)) init) r = jsGet init r
  | [], _, _, _ => rfl
  | p :: rest, init, r, h => by
      simp only [List.foldl_cons]
      rw [foldHeaders_jsGet_fresh rest _ r (fun q hq => h q (List.mem_cons_of_mem _ hq)),
        jsGet_jsSet_ne _ _ _ _ (h p (List.mem_cons_self _ _))]

/-- Each base header (keys unique, as in a JS object) survives the copy. -/
theorem foldHeaders_jsGet_mem :
    ∀ (hs : List (String × String)) (init : List (String × HVal)) (k v : String),
      (jsKeys hs).Nodup → (k, v) ∈ hs →
      jsGet (hs.foldl (fun acc p => jsSet acc p.1 (.str p.2)) init) k = some (.str v)
  | [], _, _, _, _, hmem => by simp at hmem
  | p :: rest, init, k, v, hnd, hmem => by
      simp only [jsKeys, List.map_cons, List.nodup_cons] at hnd
      rcases List.mem_cons.mp hmem with heq | hmem'
      · subst heq
        have hfr : ∀ q ∈ rest, q.1 ≠ k := by
          intro q hq hq1
          have h1 : q.1 ∈ List.map Prod.fst rest := List.mem_map_of_mem Prod.fst hq
          exact hnd.1 (hq1 ▸ h1)
        simp only [List.foldl_cons]
        rw [foldHeaders_jsGet_fresh rest _ k hfr]
        exact jsGet_jsSet_self _ _ _
      · simp only [List.foldl_cons]
        exact foldHeaders_jsGet_mem rest _ k v hnd.2 hmem'

/-- The key set after the copy: the auth keys, then the base keys. -/
theorem foldHeaders_jsKeys :
    ∀ (hs : List (String × String)) (init : List (String × HVal)),
      (jsKeys hs).Nodup → (∀ kk ∈ jsKeys hs, kk ∉ jsKeys init) →
      jsKeys (hs.foldl (fun acc p => jsSet acc p.1 (.str p.2)) init) =
        jsKeys init ++ jsKeys hs
  | [], init, _, _ => by simp [jsKeys]
  | p :: rest, init, hnd, hdisj => by
      simp only [jsKeys, List.map_cons, List.nodup_cons] at hnd hdisj
      have hfresh : ¬ (init.any (fun q => q.1 = p.1) = true) := by
        intro hc
        exact (hdisj p.1 (List.mem_cons_self _ _)) ((any_key_iff_mem init p.1).mp hc)
      have hkeys : jsKeys (jsSet init p.1 (HVal.str p.2)) = jsKeys init ++ [p.1] := by
        rw [jsKeys_jsSet]; simp [hfresh]
      have hdisj' : ∀ kk ∈ jsKeys rest, kk ∉ jsKeys (jsSet init p.1 (HVal.str p.2)) := by
        intro kk hkk hc
        rw [hkeys] at hc
        rcases List.mem_append.mp hc with hc | hc
        · exact hdisj kk (List.mem_cons_of_mem _ (by simpa [jsKeys] using hkk)) hc
        · rcases List.mem_singleton.mp hc with rfl
          exact hnd.1 (by simpa [jsKeys] using hkk)
      simp only [List.foldl_cons]
      rw [foldHeaders_jsKeys rest _ hnd.2 hdisj', hkeys, List.append_assoc,
        List.singleton_append]
      simp [jsKeys]

/-! ## The claims -/

/-- C5: the order pager terminates as soon as `current_page >= total_pages`
(no further page request, callback succeeds), and as soon as any single
page fetch fails — in which case the whole operation fails immediately
with `(error, null)` (the error outcome carries no orders, so the partial
accumulation is discarded) and the failed page is requested exactly once,
never retried. -/
theorem c5_pager_termination :
    (∀ (fetch : Nat → Except ErrEnvelope OrdersEnv) (state : String) (fuel : Nat)
        (env : OrdersEnv) (p t : Nat),
        env.meta.current_page = some p → env.meta.total_pages = some t → t ≤ p →
        ∃ env', getOrderPages fetch state (fuel + 1) env = some (.ok env', [])) ∧
    (∀ (fetch : Nat → Except ErrEnvelope OrdersEnv) (state : String) (fuel : Nat)
        (env : OrdersEnv) (p t : Nat) (e : ErrEnvelope),
        env.success = true → env.meta.current_page = some p →
        env.meta.total_pages = some t → p < t → fetch (p + 1) = .error e →
        getOrderPages fetch state (fuel + 1) env = some (.error e, [p + 1])) := by
  constructor
  · intro fetch state fuel env p t hcp htp hle
    by_cases hf : env.success = true ∧ state ≠ ""
    · by_cases hpt : p = t
      · exact ⟨_, by simp [getOrderPages, hcp, htp, hf, hpt, jsNumEq, jsNumLt]; rfl⟩
      · have hlt : ¬ p < t := by omega
        exact ⟨_, by simp [getOrderPages, hcp, htp, hf, hpt, jsNumEq, jsNumLt, hlt]; rfl⟩
    · have hlt : ¬ p < t := by omega
      exact ⟨env, by simp [getOrderPages, hcp, htp, hf, jsNumEq, jsNumLt, hlt]⟩
  · intro fetch state fuel env p t e hsucc hcp htp hlt hfe
    have hpt : ¬ p = t := by omega
    by_cases hst : state = ""
    · simp [getOrderPages, hcp, htp, hsucc, hst, jsNumEq, jsNumLt, hlt, hfe]
    · simp [getOrderPages, hcp, htp, hsucc, hst, hpt, jsNumEq, jsNumLt, hlt, hfe]

/-- C5 witness: a concrete one-page listing terminates with no page
request, and a concrete failing page-2 fetch aborts the run with the
error and a single request of page 2. -/
theorem c5_pager_termination_witness :
    (∃ env', getOrderPages (fun _ => .error ⟨false, "boom"⟩) ""
        1 ⟨true, [⟨"a", "traded"⟩], ⟨some 1, some 1, some 1⟩⟩ = some (.ok env', [])) ∧
    getOrderPages (fun _ => .error ⟨false, "boom"⟩) ""
        1 ⟨true, [⟨"a", "traded"⟩], ⟨some 1, some 2, some 3⟩⟩ =
      some (.error ⟨false, "boom"⟩, [2]) :=
  ⟨c5_pager_termination.1 _ "" 0 _ 1 1 rfl rfl (by decide),
   c5_pager_termination.2 _ "" 0 _ 1 2 _ rfl rfl rfl (by decide) rfl⟩

/-- C6: the order-state poller returns immediately, with zero refetches
and zero delays, when the envelope is failed or the state already equals
the target; otherwise it refetches by id, waits the fixed 500 ms delay,
and recurses on the freshly fetched envelope — so a first refetch that
reports the target state yields success after exactly one refetch and one
delay. -/
theorem c6_poller_behaviour :
    (∀ (fetch : String → Except ErrEnvelope OrderEnv) (status : String) (fuel : Nat)
        (env : OrderEnv), env.success = false →
        getOrderState fetch status (fuel + 1) env = some (.ok env, 0, [])) ∧
    (∀ (fetch : String → Except ErrEnvelope OrderEnv) (status : String) (fuel : Nat)
        (env : OrderEnv), env.order.state = status →
        getOrderState fetch status (fuel + 1) env = some (.ok env, 0, [])) ∧
    (∀ (fetch : String → Except ErrEnvelope OrderEnv) (status : String) (fuel : Nat)
        (env env2 : OrderEnv) (r : Except ErrEnvelope OrderEnv) (n : Nat) (d : List Nat),
        env.success = true → env.order.state ≠ status →
        fetch env.order.id = .ok env2 →
        getOrderState fetch status fuel env2 = some (r, n, d) →
        getOrderState fetch status (fuel + 1) env = some (r, n + 1, 500 :: d)) ∧
    (∀ (fetch : String → Except ErrEnvelope OrderEnv) (status : String) (fuel : Nat)
        (env env2 : OrderEnv),
        env.success = true → env.order.state ≠ status →
        fetch env.order.id = .ok env2 → env2.order.state = status →
        getOrderState fetch status (fuel + 2) env = some (.ok env2, 1, [500])) := by
  refine ⟨?_, ?_, ?_, ?_⟩
  · intro fetch status fuel env h
    simp [getOrderState, h]
  · intro fetch status fuel env h
    simp [getOrderState, h]
  · intro fetch status fuel env env2 r n d hs hne hf hrec
    simp [getOrderState, hs, hne, hf, hrec]
  · intro fetch status fuel env env2 hs hne hf htarget
    simp [getOrderState, hs, hne, hf, htarget]

/-- C6 witness: an order already `traded` returns at once with zero
refetches; a `pending` order whose single refetch reports `traded`
returns success after exactly one refetch and one 500 ms delay. -/
theorem c6_poller_behaviour_witness :
    getOrderState (fun _ => .ok ⟨true, ⟨"7", "traded"⟩⟩) "traded" 1
        ⟨true, ⟨"7", "traded"⟩⟩ = some (.ok ⟨true, ⟨"7", "traded"⟩⟩, 0, []) ∧
    getOrderState (fun _ => .ok ⟨true, ⟨"7", "traded"⟩⟩) "traded" 2
        ⟨true, ⟨"7", "pending"⟩⟩ = some (.ok ⟨true, ⟨"7", "traded"⟩⟩, 1, [500]) :=
  ⟨c6_poller_behaviour.2.1 _ "traded" 0 _ rfl,
   c6_poller_behaviour.2.2.2 _ "traded" 0 _ _ rfl (by decide) rfl rfl⟩

/-- C10: whenever `_getOrderState` (hence `pollOrderState`) receives an
envelope whose `success` is `false`, it invokes the callback as
`(null, envelope)`: the failure lands in the result position with a null
error, indistinguishable from a successful poll to a caller that only
checks the error argument. -/
theorem c10_failed_envelope_in_result_position :
    ∀ (fetch : String → Except ErrEnvelope OrderEnv) (status : String) (fuel : Nat)
      (env : OrderEnv), env.success = false →
      pollOrderState fetch status (fuel + 1) env = some (.ok env, 0, []) := by
  intro fetch status fuel env h
  simp [pollOrderState, getOrderState, h]

/-- C10 witness: a concrete failed envelope is delivered as `.ok` (error
channel empty) with zero refetches. -/
theorem c10_failed_envelope_in_result_position_witness :
    pollOrderState (fun _ => .error ⟨false, "x"⟩) "traded" 1 ⟨false, ⟨"9", "pending"⟩⟩ =
      some (.ok ⟨false, ⟨"9", "pending"⟩⟩, 0, []) :=
  c10_failed_envelope_in_result_position _ "traded" 0 _ rfl

/-- C7: on a successful cancel round trip, a returned order state other
than `canceling`/`canceled` is overridden to a failure envelope (success
`false`, error kind `order_not_valid_for_canceling`, delivered on the
error channel with a null result); a returned state of `canceling` or
`canceled` yields success. -/
theorem c7_cancel_state_validation :
    ∀ (c : Client) (orderId : String) (ord : OrderRec)
      (tr : NetReq → Except ErrEnvelope OrderRec) (now : Nat),
      c.secret ≠ "" → (∀ r, tr r = .ok ord) →
      ((ord.state ≠ "canceling" ∧ ord.state ≠ "canceled" →
          (c.cancelOrderId orderId tr now).error =
            some (.inr ⟨false, some "order_not_valid_for_canceling", ord⟩) ∧
          (c.cancelOrderId orderId tr now).result = none) ∧
       (ord.state = "canceling" ∨ ord.state = "canceled" →
          (c.cancelOrderId orderId tr now).error = none ∧
          (c.cancelOrderId orderId tr now).result = some ⟨true, none, ord⟩)) := by
  intro c orderId ord tr now hsec htr
  constructor
  · intro hstate
    simp [Client.cancelOrderId, hsec, htr, hstate]
  · intro hstate
    have hn : ¬ (ord.state ≠ "canceling" ∧ ord.state ≠ "canceled") := by
      rcases hstate with h | h <;> simp [h]
    simp [Client.cancelOrderId, hsec, htr, hn]

/-- C7 witness: a mocked success reporting state `filled` produces the
`order_not_valid_for_canceling` failure envelope; the same call shape
with state `canceled` succeeds (second conjunct applied vacuously here
and positively in a second instantiation). -/
theorem c7_cancel_state_validation_witness :
    ((Client.cancelOrderId ⟨"https://www.surbtc.com/api/v2", "k", "s",
        [("Accept", "application/json")]⟩ "42"
        (fun _ => .ok ⟨"42", "filled"⟩) 7).error =
      some (.inr ⟨false, some "order_not_valid_for_canceling", ⟨"42", "filled"⟩⟩) ∧
     (Client.cancelOrderId ⟨"https://www.surbtc.com/api/v2", "k", "s",
        [("Accept", "application/json")]⟩ "42"
        (fun _ => .ok ⟨"42", "filled"⟩) 7).result = none) ∧
    ((Client.cancelOrderId ⟨"https://www.surbtc.com/api/v2", "k", "s",
        [("Accept", "application/json")]⟩ "42"
        (fun _ => .ok ⟨"42", "canceled"⟩) 7).error = none ∧
     (Client.cancelOrderId ⟨"https://www.surbtc.com/api/v2", "k", "s",
        [("Accept", "application/json")]⟩ "42"
        (fun _ => .ok ⟨"42", "canceled"⟩) 7).result = some ⟨true, none, ⟨"42", "canceled"⟩⟩) :=
  ⟨(c7_cancel_state_validation _ "42" ⟨"42", "filled"⟩ _ 7 (by decide) (fun _ => rfl)).1
      (by refine ⟨?_, ?_⟩ <;> decide),
   (c7_cancel_state_validation _ "42" ⟨"42", "canceled"⟩ _ 7 (by decide) (fun _ => rfl)).2
      (Or.inr rfl)⟩

/-- The default header object both constructors install. -/
def defaultHeaders : List (String × String) :=
  [("Accept", "application/json"), ("Content-Type", "application/json")]

/-- A credential-less client (empty key and secret), as built by
`new Client({})`. -/
def emptyClient : Client :=
  ⟨"https://www.surbtc.com/api/v2", "", "", defaultHeaders⟩

/-- C2 counterexample: `requestWithdrawal` checks the Bitcoin address
BEFORE the credential guard, so a client with an empty secret, currency
`BTC` and an address invalid for the relevant network gets
`InvalidRequest:InvalidBitcoinAddress` — not the
`InvalidRequest:ApiKeyRequired` the claim promises for every
auth-required operation.  (`validate` constantly false stands for an
address, such as an empty string, that `bitcoin-address` rejects on every
network.) -/
theorem c2_counterexample_withdrawal_before_guard :
    emptyClient.requestWithdrawal (fun _ _ => false) ⟨"BTC", "not-an-address", 1⟩
        (fun _ => .error ⟨false, "unused"⟩) 0 =
      ⟨some (invalidRequestJson "InvalidRequest:InvalidBitcoinAddress"), none, []⟩ ∧
    invalidRequestJson "InvalidRequest:InvalidBitcoinAddress" ≠
      invalidRequestJson "InvalidRequest:ApiKeyRequired" :=
  ⟨rfl, by decide⟩

/-- C2 (amended): every auth-required facade called with an empty secret
returns `InvalidRequest:ApiKeyRequired` on the error channel with a null
result and no network request — except that `requestWithdrawal` runs its
Bitcoin address check first, so when the currency is BTC and the address
fails that check it returns `InvalidRequest:InvalidBitcoinAddress`
instead (still on the error channel, null result, no network request);
`registerBankAccount` reaches its guard only when the named bank exists
in the bank table (otherwise the JS throws before returning anything). -/
theorem c2_empty_secret_guard :
    (∀ (c : Client) (currency : Option String) (tr : Transport) (now : Nat),
       c.secret = "" → c.getBalances currency tr now = apiKeyRequired) ∧
    (∀ (c : Client) (marketId type : String) (marketOrder : Option Bool)
       (tr : Transport) (now : Nat),
       c.secret = "" → c.getExchangeFee marketId type marketOrder tr now = apiKeyRequired) ∧
    (∀ (c : Client) (marketId type : String) (amount : Int) (tr : Transport) (now : Nat),
       c.secret = "" → c.getQuotation marketId type amount tr now = apiKeyRequired) ∧
    (∀ (c : Client) (marketId type : String) (amount : Int) (tr : Transport) (now : Nat),
       c.secret = "" → c.getReverseQuotation marketId type amount tr now = apiKeyRequired) ∧
    (∀ (c : Client) (marketId : String) (order : Json) (tr : Transport) (now : Nat),
       c.secret = "" → c.createOrder marketId order tr now = apiKeyRequired) ∧
    (∀ (c : Client) (marketId : String) (page : Nat) (tr : Transport) (now : Nat),
       c.secret = "" → c.getOrdersRaw marketId page tr now = apiKeyRequired) ∧
    (∀ (c : Client) (orderId : String) (tr : Transport) (now : Nat),
       c.secret = "" → c.getOrderId orderId tr now = apiKeyRequired) ∧
    (∀ (c : Client) (orderId : String) (tr : NetReq → Except ErrEnvelope OrderRec) (now : Nat),
       c.secret = "" → c.cancelOrderId orderId tr now =
         ⟨some (.inl (invalidRequestJson "InvalidRequest:ApiKeyRequired")), none, []⟩) ∧
    (∀ (c : Client) (banks : List Bank) (opts : BankAccountOpts) (tr : Transport)
       (now : Nat) (bank : Bank),
       banks.find? (fun b => b.name = opts.bank_name) = some bank → c.secret = "" →
       c.registerBankAccount banks opts tr now = some apiKeyRequired) ∧
    (∀ (c : Client) (validate : String → String → Bool) (opts : WithdrawalOpts)
       (tr : Transport) (now : Nat), c.secret = "" →
       (¬ (jsToUpper opts.currency = "BTC" ∧
            btcAddressRejected c validate opts.target_address) →
          c.requestWithdrawal validate opts tr now = apiKeyRequired) ∧
       (c.requestWithdrawal validate opts tr now).result = none ∧
       (c.requestWithdrawal validate opts tr now).requests = [] ∧
       (c.requestWithdrawal validate opts tr now).error.isSome = true) ∧
    (∀ (c : Client) (opts : DepositOpts) (tr : Transport) (now : Nat),
       c.secret = "" → c.registerDeposit opts tr now = apiKeyRequired) := by
  refine ⟨?_, ?_, ?_, ?_, ?_, ?_, ?_, ?_, ?_, ?_, ?_⟩
  · intro c currency tr now h
    simp [Client.getBalances, h]
  · intro c marketId type marketOrder tr now h
    simp [Client.getExchangeFee, h]
  · intro c marketId type amount tr now h
    simp [Client.getQuotation, h]
  · intro c marketId type amount tr now h
    simp [Client.getReverseQuotation, h]
  · intro c marketId order tr now h
    simp [Client.createOrder, h]
  · intro c marketId page tr now h
    simp [Client.getOrdersRaw, h]
  · intro c orderId tr now h
    simp [Client.getOrderId, h]
  · intro c orderId tr now h
    simp [Client.cancelOrderId, h]
  · intro c banks opts tr now bank hbank h
    simp [Client.registerBankAccount, hbank, h]
  · intro c validate opts tr now h
    by_cases hbtc : jsToUpper opts.currency = "BTC"
    · by_cases hrej : btcAddressRejected c validate opts.target_address
      · refine ⟨fun hn => absurd ⟨hbtc, hrej⟩ hn, ?_, ?_, ?_⟩ <;>
          simp [Client.requestWithdrawal, hbtc, hrej]
      · refine ⟨fun _ => ?_, ?_, ?_, ?_⟩ <;>
          simp [Client.requestWithdrawal, hbtc, hrej, h, apiKeyRequired]
    · by_cases hclp : jsToUpper opts.currency = "CLP" ∨ jsToUpper opts.currency = "COP"
      · refine ⟨fun _ => ?_, ?_, ?_, ?_⟩ <;>
          simp [Client.requestWithdrawal, hbtc, hclp, h, apiKeyRequired]
      · refine ⟨fun _ => ?_, ?_, ?_, ?_⟩ <;>
          simp [Client.requestWithdrawal, hbtc, hclp, h, apiKeyRequired]
  · intro c opts tr now h
    simp [Client.registerDeposit, h]

/-- C2 witness: each guard applied to a concrete credential-less client,
and the withdrawal carve-out applied with a non-BTC currency. -/
theorem c2_empty_secret_guard_witness :
    emptyClient.getBalances (some "BTC") (fun _ => .error ⟨false, "t"⟩) 0 = apiKeyRequired ∧
    emptyClient.getExchangeFee "btc-clp" "bid" none (fun _ => .error ⟨false, "t"⟩) 0 =
      apiKeyRequired ∧
    emptyClient.getQuotation "btc-clp" "bid" 1000 (fun _ => .error ⟨false, "t"⟩) 0 =
      apiKeyRequired ∧
    emptyClient.getReverseQuotation "btc-clp" "bid" 1000 (fun _ => .error ⟨false, "t"⟩) 0 =
      apiKeyRequired ∧
    emptyClient.createOrder "btc-clp" (Json.mkObj []) (fun _ => .error ⟨false, "t"⟩) 0 =
      apiKeyRequired ∧
    emptyClient.getOrdersRaw "btc-clp" 0 (fun _ => .error ⟨false, "t"⟩) 0 = apiKeyRequired ∧
    emptyClient.getOrderId "77" (fun _ => .error ⟨false, "t"⟩) 0 = apiKeyRequired ∧
    emptyClient.cancelOrderId "77" (fun _ => .ok ⟨"77", "canceled"⟩) 0 =
      ⟨some (.inl (invalidRequestJson "InvalidRequest:ApiKeyRequired")), none, []⟩ ∧
    emptyClient.registerBankAccount [⟨"bancolombia", 7⟩]
        ⟨"a@b.c", "1", "cop", "bancolombia", "9", "n", "8", "savings"⟩
        (fun _ => .error ⟨false, "t"⟩) 0 = some apiKeyRequired ∧
    emptyClient.requestWithdrawal (fun _ _ => true) ⟨"CLP", "", 10⟩
        (fun _ => .error ⟨false, "t"⟩) 0 = apiKeyRequired ∧
    emptyClient.registerDeposit ⟨"CLP", 10⟩ (fun _ => .error ⟨false, "t"⟩) 0 =
      apiKeyRequired :=
  ⟨c2_empty_secret_guard.1 _ _ _ 0 rfl,
   c2_empty_secret_guard.2.1 _ _ _ _ _ 0 rfl,
   c2_empty_secret_guard.2.2.1 _ _ _ _ _ 0 rfl,
   c2_empty_secret_guard.2.2.2.1 _ _ _ _ _ 0 rfl,
   c2_empty_secret_guard.2.2.2.2.1 _ _ _ _ 0 rfl,
   c2_empty_secret_guard.2.2.2.2.2.1 _ _ _ _ 0 rfl,
   c2_empty_secret_guard.2.2.2.2.2.2.1 _ _ _ 0 rfl,
   c2_empty_secret_guard.2.2.2.2.2.2.2.1 _ _ _ 0 rfl,
   c2_empty_secret_guard.2.2.2.2.2.2.2.2.1 _ _ _ _ 0 _ rfl rfl,
   (c2_empty_secret_guard.2.2.2.2.2.2.2.2.2.1 _ _ _ _ 0 rfl).1 (by decide),
   c2_empty_secret_guard.2.2.2.2.2.2.2.2.2.2 _ _ _ 0 rfl⟩

/-- C8 counterexample: with a base URL in which `'stg'` occurs at
position 0 the source skips Bitcoin-address validation entirely — the
two `indexOf` guards (`> 0` and `< 0`) are both false — so an address
invalid for every network (constantly-false `validate`) produces no
`InvalidBitcoinAddress` error and one network request, contrary to the
claim that an invalid address always short-circuits. -/
theorem c8_counterexample_stg_at_zero :
    ((Client.requestWithdrawal ⟨"stg.surbtc.com/api/v2", "k", "s", defaultHeaders⟩
        (fun _ _ => false) ⟨"BTC", "not-an-address", 1⟩ (fun _ => .ok .null) 0).error =
      none) ∧
    ((Client.requestWithdrawal ⟨"stg.surbtc.com/api/v2", "k", "s", defaultHeaders⟩
        (fun _ _ => false) ⟨"BTC", "not-an-address", 1⟩ (fun _ => .ok .null) 0).requests.length
      = 1) :=
  ⟨rfl, rfl⟩

/-- Requests issued by the shared `.end` handler: always exactly the one
dispatched request, whichever way the transport answers. -/
theorem dispatch_requests (tr : Transport) (req : NetReq) :
    (dispatch tr req).requests = [req] := by
  unfold dispatch
  cases tr req <;> rfl

/-- C8 (amended): for a BTC withdrawal, provided `'stg'` does not occur
at position 0 of the base URL (true of every scheme-prefixed URL, where
the staging marker — when present — sits after `https://`), the address
is validated against the implied network (staging URL → `testnet`,
otherwise `prod`): an invalid address short-circuits with
`InvalidRequest:InvalidBitcoinAddress` and no network request, and a
valid address makes every issued request carry the amount converted to
satoshis (`amount * 10^8`). -/
theorem c8_btc_withdrawal_validation :
    ∀ (c : Client) (validate : String → String → Bool) (opts : WithdrawalOpts)
      (tr : Transport) (now : Nat),
      jsToUpper opts.currency = "BTC" →
      jsIndexOf c.api "stg" ≠ 0 →
      ((validate opts.target_address
          (if 0 < jsIndexOf c.api "stg" then "testnet" else "prod") = false →
         c.requestWithdrawal validate opts tr now =
           ⟨some (invalidRequestJson "InvalidRequest:InvalidBitcoinAddress"), none, []⟩) ∧
       (validate opts.target_address
          (if 0 < jsIndexOf c.api "stg" then "testnet" else "prod") = true →
         ∀ req ∈ (c.requestWithdrawal validate opts tr now).requests,
           req.body = some (Json.mkObj
             [("withdrawal_data", Json.mkObj [("target_address", .str opts.target_address)]),
              ("amount", .num (toSatoshi opts.amount)),
              ("currency", .str "BTC")]))) := by
  intro c validate opts tr now hbtc hidx
  rcases (by omega : 0 < jsIndexOf c.api "stg" ∨ jsIndexOf c.api "stg" < 0) with hpos | hneg
  · have hif : (if 0 < jsIndexOf c.api "stg" then "testnet" else "prod") = "testnet" :=
      if_pos hpos
    constructor
    · intro hinv
      rw [hif] at hinv
      have hrej : btcAddressRejected c validate opts.target_address :=
        Or.inl ⟨hpos, by simp [hinv]⟩
      simp [Client.requestWithdrawal, hbtc, hrej]
    · intro hval
      rw [hif] at hval
      have hrej : ¬ btcAddressRejected c validate opts.target_address := by
        rintro (⟨_, hv⟩ | ⟨hneg2, _⟩)
        · exact hv (by simp [hval])
        · omega
      by_cases hsec : c.secret = ""
      · simp [Client.requestWithdrawal, hbtc, hrej, hsec, apiKeyRequired]
      · intro req hreq
        simp only [Client.requestWithdrawal, hbtc, if_true, hrej, if_false, hsec,
          if_neg hrej, if_neg hsec, dispatch_requests, List.mem_singleton,
          reduceIte] at hreq
        rw [hreq]
  · have hif : (if 0 < jsIndexOf c.api "stg" then "testnet" else "prod") = "prod" := by
      have hnp : ¬ 0 < jsIndexOf c.api "stg" := by omega
      exact if_neg hnp
    constructor
    · intro hinv
      rw [hif] at hinv
      have hrej : btcAddressRejected c validate opts.target_address :=
        Or.inr ⟨hneg, by simp [hinv]⟩
      simp [Client.requestWithdrawal, hbtc, hrej]
    · intro hval
      rw [hif] at hval
      have hrej : ¬ btcAddressRejected c validate opts.target_address := by
        rintro (⟨hpos2, _⟩ | ⟨_, hv⟩)
        · omega
        · exact hv (by simp [hval])
      by_cases hsec : c.secret = ""
      · simp [Client.requestWithdrawal, hbtc, hrej, hsec, apiKeyRequired]
      · intro req hreq
        simp only [Client.requestWithdrawal, hbtc, if_true, hrej, if_false, hsec,
          if_neg hrej, if_neg hsec, dispatch_requests, List.mem_singleton,
          reduceIte] at hreq
        rw [hreq]

/-- C8 witness: a production URL with an invalid address short-circuits;
the same withdrawal with a valid address issues its one request carrying
`1 BTC = 100000000` satoshis. -/
theorem c8_btc_withdrawal_validation_witness :
    (Client.requestWithdrawal ⟨"https://www.surbtc.com/api/v2", "k", "s", defaultHeaders⟩
        (fun _ net => net = "testnet") ⟨"BTC", "addr1", 1⟩ (fun _ => .ok .null) 0 =
      ⟨some (invalidRequestJson "InvalidRequest:InvalidBitcoinAddress"), none, []⟩) ∧
    (∀ req ∈ (Client.requestWithdrawal
        ⟨"https://www.surbtc.com/api/v2", "k", "s", defaultHeaders⟩
        (fun _ _ => true) ⟨"BTC", "addr1", 1⟩ (fun _ => .ok .null) 0).requests,
      req.body = some (Json.mkObj
        [("withdrawal_data", Json.mkObj [("target_address", .str "addr1")]),
         ("amount", .num (toSatoshi 1)),
         ("currency", .str "BTC")])) :=
  ⟨(c8_btc_withdrawal_validation _ _ ⟨"BTC", "addr1", 1⟩ _ 0 (by decide) (by decide)).1
      (by decide),
   (c8_btc_withdrawal_validation _ _ ⟨"BTC", "addr1", 1⟩ _ 0 (by decide) (by decide)).2
      (by decide)⟩

/-- A fully configured client used for concrete instantiations. -/
def demoClient : Client :=
  ⟨"https://www.surbtc.com/api/v2", "k", "secret", defaultHeaders⟩

/-- C3 counterexample: the authentication headers the builder actually
produces are named `X-SBTC-APIKEY` / `X-SBTC-NONCE` / `X-SBTC-SIGNATURE`;
none of the names `X-API-KEY` / `X-NONCE` / `X-SIGNATURE` the claim
requires is present in the built header set. -/
theorem c3_counterexample_header_names :
    jsGet (demoClient.getAuthHeaders 1000 "GET" "/markets" .null) "X-API-KEY" = none ∧
    jsGet (demoClient.getAuthHeaders 1000 "GET" "/markets" .null) "X-NONCE" = none ∧
    jsGet (demoClient.getAuthHeaders 1000 "GET" "/markets" .null) "X-SIGNATURE" = none :=
  ⟨rfl, rfl, rfl⟩

/-- C3 (amended): for every authenticated request the built header set is
the client's base headers (keys unique and none of them an auth name)
merged with exactly three authentication headers named `X-SBTC-APIKEY`,
`X-SBTC-NONCE` and `X-SBTC-SIGNATURE`, where the nonce slot carries the
epoch-millisecond clock reading minted once for the call and the
signature slot carries the signer's output computed over that same
nonce. -/
theorem c3_auth_headers :
    ∀ (c : Client) (now : Nat) (method path : String) (data : Json),
      (jsKeys c.headers).Nodup →
      (∀ k ∈ jsKeys c.headers,
        k ≠ "X-SBTC-APIKEY" ∧ k ≠ "X-SBTC-NONCE" ∧ k ≠ "X-SBTC-SIGNATURE") →
      jsGet (c.getAuthHeaders now method path data) "X-SBTC-APIKEY" = some (.str c.key) ∧
      jsGet (c.getAuthHeaders now method path data) "X-SBTC-NONCE" = some (.num now) ∧
      jsGet (c.getAuthHeaders now method path data) "X-SBTC-SIGNATURE" =
        some (optHVal (c.getHmac now method path data)) ∧
      (∀ k v, (k, v) ∈ c.headers →
        jsGet (c.getAuthHeaders now method path data) k = some (.str v)) ∧
      jsKeys (c.getAuthHeaders now method path data) =
        ["X-SBTC-APIKEY", "X-SBTC-NONCE", "X-SBTC-SIGNATURE"] ++ jsKeys c.headers := by
  intro c now method path data hnd hres
  have h1 : ∀ p ∈ c.headers, p.1 ≠ "X-SBTC-APIKEY" := fun p hp =>
    (hres p.1 (List.mem_map_of_mem Prod.fst hp)).1
  have h2 : ∀ p ∈ c.headers, p.1 ≠ "X-SBTC-NONCE" := fun p hp =>
    (hres p.1 (List.mem_map_of_mem Prod.fst hp)).2.1
  have h3 : ∀ p ∈ c.headers, p.1 ≠ "X-SBTC-SIGNATURE" := fun p hp =>
    (hres p.1 (List.mem_map_of_mem Prod.fst hp)).2.2
  refine ⟨?_, ?_, ?_, ?_, ?_⟩
  · rw [Client.getAuthHeaders, foldHeaders_jsGet_fresh _ _ _ h1]; rfl
  · rw [Client.getAuthHeaders, foldHeaders_jsGet_fresh _ _ _ h2]; rfl
  · rw [Client.getAuthHeaders, foldHeaders_jsGet_fresh _ _ _ h3]; rfl
  · intro k v hkv
    rw [Client.getAuthHeaders]
    exact foldHeaders_jsGet_mem _ _ _ _ hnd hkv
  · rw [Client.getAuthHeaders, foldHeaders_jsKeys _ _ hnd ?_]
    · rfl
    · intro kk hkk hc
      rcases hres kk hkk with ⟨r1, r2, r3⟩
      simp [jsKeys] at hc
      rcases hc with hc | hc | hc
      · exact r1 hc
      · exact r2 hc
      · exact r3 hc

/-- C3 witness: the amended property at the demo client, nonce 1000, for
a GET of `/markets`, with the `Accept` base header surviving the merge. -/
theorem c3_auth_headers_witness :
    jsGet (demoClient.getAuthHeaders 1000 "GET" "/markets" .null) "X-SBTC-APIKEY" =
      some (.str demoClient.key) ∧
    jsGet (demoClient.getAuthHeaders 1000 "GET" "/markets" .null) "X-SBTC-NONCE" =
      some (.num 1000) ∧
    jsGet (demoClient.getAuthHeaders 1000 "GET" "/markets" .null) "X-SBTC-SIGNATURE" =
      some (optHVal (demoClient.getHmac 1000 "GET" "/markets" .null)) ∧
    jsGet (demoClient.getAuthHeaders 1000 "GET" "/markets" .null) "Accept" =
      some (.str "application/json") ∧
    jsKeys (demoClient.getAuthHeaders 1000 "GET" "/markets" .null) =
      ["X-SBTC-APIKEY", "X-SBTC-NONCE", "X-SBTC-SIGNATURE"] ++ jsKeys demoClient.headers := by
  obtain ⟨w1, w2, w3, w4, w5⟩ :=
    c3_auth_headers demoClient 1000 "GET" "/markets" .null (by decide) (by decide)
  exact ⟨w1, w2, w3, w4 "Accept" "application/json" (by decide), w5⟩

/-! ## C1: the signing scheme -/

/-- The sixteen lowercase hexadecimal digits. -/
def hexChars : List Char := (List.range 16).map hexDigit

theorem hexDigit_mem (n : Nat) (h : n < 16) : hexDigit n ∈ hexChars :=
  List.mem_map_of_mem hexDigit (List.mem_range.mpr h)

theorem toBytesBE_bytes_lt (n x : Nat) : ∀ b ∈ toBytesBE n x, b < 256 := by
  intro b hb
  simp only [toBytesBE, List.mem_map] at hb
  obtain ⟨i, _, hi⟩ := hb
  subst hi
  exact Nat.mod_lt _ (by norm_num)

theorem sha384_bytes_lt (msg : List Nat) : ∀ b ∈ sha384 msg, b < 256 := by
  intro b hb
  simp only [sha384] at hb
  exact toBytesBE_bytes_lt _ _ _ hb

theorem hmacSha384_bytes_lt (key msg : List Nat) : ∀ b ∈ hmacSha384 key msg, b < 256 := by
  intro b hb
  simp only [hmacSha384] at hb
  exact sha384_bytes_lt _ _ hb

theorem bytesToHex_mem_hexChars :
    ∀ (bs : List Nat), (∀ b ∈ bs, b < 256) → ∀ ch ∈ (bytesToHex bs).data, ch ∈ hexChars
  | [], _, ch, hch => absurd (hch : ch ∈ ([] : List Char)) (List.not_mem_nil ch)
  | b :: rest, h, ch, hch => by
      have hb : b < 256 := h b (List.mem_cons_self _ _)
      have hch2 : ch ∈ hexDigit (b / 16) :: hexDigit (b % 16) :: (bytesToHex rest).data := hch
      rcases List.mem_cons.mp hch2 with rfl | hch3
      · exact hexDigit_mem _ (by omega)
      · rcases List.mem_cons.mp hch3 with rfl | hch4
        · exact hexDigit_mem _ (Nat.mod_lt _ (by norm_num))
        · exact bytesToHex_mem_hexChars rest
            (fun x hx => h x (List.mem_cons_of_mem _ hx)) ch hch4

/-- C1: the signer hashes the canonical message — `{METHOD} {PATH}
{NONCE}` for the body-less GET shape, `{METHOD} {PATH}
{BASE64(JSON(body))} {NONCE}` for POST/PUT, with PATH the path component
of the full URL — with HMAC-SHA384 keyed by the secret, and emits the
digest as lowercase hex.  (The body-less shape is inhabited by GET alone:
per spec §4.1 any other method is unsupported and the signer yields
`undefined`, which the quantifier reflects.) -/
theorem c1_signer_canonical_message :
    ∀ (c : Client) (method path : String) (nonce : Nat) (data : Json),
      method = "GET" ∨ method = "POST" ∨ method = "PUT" →
      (c.getHmac nonce method path data =
        some (bytesToHex (hmacSha384 (utf8Encode c.secret) (utf8Encode
          (if method = "GET" then
            method ++ " " ++ urlPathStr (c.api ++ path) ++ " " ++ toString nonce
          else
            method ++ " " ++ urlPathStr (c.api ++ path) ++ " " ++
              base64Encode (utf8Encode (stringify data)) ++ " " ++ toString nonce))))) ∧
      (∀ sig, c.getHmac nonce method path data = some sig →
        ∀ ch ∈ sig.data, ch ∈ hexChars) := by
  intro c method path nonce data hm
  constructor
  · rcases hm with rfl | rfl | rfl <;>
      simp [Client.getHmac, signedMessage, hmacSha384Hex, Client.getFullUrl]
  · intro sig hsig ch hch
    rcases hmsg : signedMessage c nonce method path data with _ | m
    · rw [Client.getHmac, hmsg] at hsig
      simp at hsig
    · rw [Client.getHmac, hmsg] at hsig
      simp only [Option.map_some', Option.some.injEq] at hsig
      rw [← hsig] at hch
      exact bytesToHex_mem_hexChars _ (hmacSha384_bytes_lt _ _) ch hch

/-- C1 witness: the GET shape of the property at the demo client. -/
theorem c1_signer_canonical_message_witness :
    demoClient.getHmac 1000 "GET" "/markets" .null =
      some (bytesToHex (hmacSha384 (utf8Encode demoClient.secret) (utf8Encode
        (if "GET" = "GET" then
          "GET" ++ " " ++ urlPathStr (demoClient.api ++ "/markets") ++ " " ++ toString 1000
        else
          "GET" ++ " " ++ urlPathStr (demoClient.api ++ "/markets") ++ " " ++
            base64Encode (utf8Encode (stringify .null)) ++ " " ++ toString 1000)))) :=
  (c1_signer_canonical_message demoClient "GET" "/markets" 1000 .null (Or.inl rfl)).1

/-! ## C9: the two cancelOrderId implementations sign different messages -/

/-- The signature header the auth builder installs, whenever no base
header shadows it. -/
theorem getAuthHeaders_signature (c : Client) (now : Nat) (method path : String)
    (data : Json) (h : ∀ p ∈ c.headers, p.1 ≠ "X-SBTC-SIGNATURE") :
    jsGet (c.getAuthHeaders now method path data) "X-SBTC-SIGNATURE" =
      some (optHVal (c.getHmac now method path data)) := by
  rw [Client.getAuthHeaders, foldHeaders_jsGet_fresh _ _ _ h]
  rfl

set_option maxRecDepth 100000 in
set_option maxHeartbeats 4000000 in
/-- C9: the index.js `cancelOrderId` signs the GET-shaped message (no
body component) although it dispatches a PUT carrying
`{state: 'canceling'}`, while the part_002 `cancelOrderId` signs the
PUT-shaped message including the base64-encoded JSON body; the two
canonical messages differ for every client, order id and nonce, and at a
representative input the two resulting HMAC-SHA384 signatures are
computed concretely and differ. -/
theorem c9_cancel_signing_divergence :
    (∀ (c : Client) (orderId : String) (tr : NetReq → Except ErrEnvelope OrderRec)
        (now : Nat), c.secret ≠ "" →
        (∀ p ∈ c.headers, p.1 ≠ "X-SBTC-SIGNATURE") →
        (c.cancelOrderIdV1 orderId tr now).requests.map NetReq.method = [.put] ∧
        (c.cancelOrderIdV1 orderId tr now).requests.map NetReq.body =
          [some (Json.mkObj [("state", .str "canceling")])] ∧
        (c.cancelOrderIdV1 orderId tr now).requests.map
            (fun req => jsGet req.headers "X-SBTC-SIGNATURE") =
          [some (optHVal ((signedMessage c now "GET" ("/orders/" ++ orderId) .null).map
             (hmacSha384Hex c.secret)))]) ∧
    (∀ (c : Client) (orderId : String) (tr : NetReq → Except ErrEnvelope OrderRec)
        (now : Nat), c.secret ≠ "" →
        (∀ p ∈ c.headers, p.1 ≠ "X-SBTC-SIGNATURE") →
        (c.cancelOrderId orderId tr now).requests.map
            (fun req => jsGet req.headers "X-SBTC-SIGNATURE") =
          [some (optHVal ((signedMessage c now "PUT" ("/orders/" ++ orderId)
              (Json.mkObj [("state", .str "canceling")])).map (hmacSha384Hex c.secret)))]) ∧
    (∀ (c : Client) (orderId : String) (now : Nat),
        signedMessage c now "GET" ("/orders/" ++ orderId) .null ≠
        signedMessage c now "PUT" ("/orders/" ++ orderId)
          (Json.mkObj [("state", .str "canceling")])) ∧
    signedMessage demoClient 1000 "GET" "/orders/1" .null =
      some "GET /api/v2/orders/1 1000" ∧
    signedMessage demoClient 1000 "PUT" "/orders/1" (Json.mkObj [("state", .str "canceling")]) =
      some "PUT /api/v2/orders/1 eyJzdGF0ZSI6ImNhbmNlbGluZyJ9 1000" ∧
    hmacSha384Hex "secret" "GET /api/v2/orders/1 1000" =
      "56fb8096725656965eff46a8fe624da008bf3d5a758b9a61f7fac110f5b55e729f333ff5cf243e77e6faaaf40c9e2b4c" ∧
    hmacSha384Hex "secret" "PUT /api/v2/orders/1 eyJzdGF0ZSI6ImNhbmNlbGluZyJ9 1000" =
      "ade1798167dbe9cd6c711bcffa669391f1e6aaea0952616c4e751f2ab7671c06ca1360bf09b8df527e35d90328e7bf87" ∧
    ("56fb8096725656965eff46a8fe624da008bf3d5a758b9a61f7fac110f5b55e729f333ff5cf243e77e6faaaf40c9e2b4c" : String) ≠
      "ade1798167dbe9cd6c711bcffa669391f1e6aaea0952616c4e751f2ab7671c06ca1360bf09b8df527e35d90328e7bf87" := by
  refine ⟨?_, ?_, ?_, ?_, ?_, ?_, ?_, ?_⟩
  · intro c orderId tr now hsec hshadow
    have hreqs : (c.cancelOrderIdV1 orderId tr now).requests =
        [⟨.put, c.getFullUrl ("/orders/" ++ orderId),
          c.getAuthHeaders now "GET" ("/orders/" ++ orderId) .null,
          some (Json.mkObj [("state", .str "canceling")])⟩] := by
      cases htr : tr ⟨.put, c.getFullUrl ("/orders/" ++ orderId),
          c.getAuthHeaders now "GET" ("/orders/" ++ orderId) .null,
          some (Json.mkObj [("state", .str "canceling")])⟩ with
      | error e => simp [Client.cancelOrderIdV1, hsec, htr]
      | ok ord =>
          by_cases hst : ord.state ≠ "canceling" ∧ ord.state ≠ "canceled" <;>
            simp [Client.cancelOrderIdV1, hsec, htr, hst]
    rw [hreqs]
    refine ⟨rfl, rfl, ?_⟩
    simp only [List.map_cons, List.map_nil]
    rw [getAuthHeaders_signature c now "GET" _ .null hshadow]
    rfl
  · intro c orderId tr now hsec hshadow
    have hreqs : (c.cancelOrderId orderId tr now).requests =
        [⟨.put, c.getFullUrl ("/orders/" ++ orderId),
          c.getAuthHeaders now "PUT" ("/orders/" ++ orderId)
            (Json.mkObj [("state", .str "canceling")]),
          some (Json.mkObj [("state", .str "canceling")])⟩] := by
      cases htr : tr ⟨.put, c.getFullUrl ("/orders/" ++ orderId),
          c.getAuthHeaders now "PUT" ("/orders/" ++ orderId)
            (Json.mkObj [("state", .str "canceling")]),
          some (Json.mkObj [("state", .str "canceling")])⟩ with
      | error e => simp [Client.cancelOrderId, hsec, htr]
      | ok ord =>
          by_cases hst : ord.state ≠ "canceling" ∧ ord.state ≠ "canceled" <;>
            simp [Client.cancelOrderId, hsec, htr, hst]
    rw [hreqs]
    simp only [List.map_cons, List.map_nil]
    rw [getAuthHeaders_signature c now "PUT" _ _ hshadow]
    rfl
  · intro c orderId now h
    have h1 : signedMessage c now "GET" ("/orders/" ++ orderId) .null =
        some ("GET" ++ " " ++ urlPathStr (c.getFullUrl ("/orders/" ++ orderId)) ++ " " ++
          toString now) := by
      simp [signedMessage]
    have h2 : signedMessage c now "PUT" ("/orders/" ++ orderId)
        (Json.mkObj [("state", .str "canceling")]) =
        some ("PUT" ++ " " ++ urlPathStr (c.getFullUrl ("/orders/" ++ orderId)) ++ " " ++
          base64Encode (utf8Encode (stringify (Json.mkObj [("state", .str "canceling")]))) ++
          " " ++ toString now) := by
      simp [signedMessage]
    rw [h1, h2] at h
    have h3 := Option.some.inj h
    have h4 := congrArg String.data h3
    simp only [String.data_append] at h4
    simp only [List.cons_append, List.nil_append, List.cons.injEq] at h4
    exact absurd h4.1 (by decide)
  · decide
  · decide
  · decide
  · decide
  · decide

/-! ## C4: the pager fetches every page and filters by state -/

theorem filter_idem (f : α → Bool) : ∀ l : List α, (l.filter f).filter f = l.filter f
  | [] => rfl
  | a :: l => by
      by_cases h : f a <;> simp [List.filter_cons, h, filter_idem f l]

/-- The orders of pages `from1 .. from1 + n - 1`, concatenated in order. -/
def pagesConcat (envs : Nat → OrdersEnv) (from1 n : Nat) : List OrderRec :=
  (List.range' from1 n).foldr (fun k l => (envs k).orders ++ l) []

/-- Running the pager loop from page `p` of `N` (all fetches succeeding)
appends pages `p+1 .. N` in order and requests exactly those pages. -/
theorem pager_run (fetch : Nat → Except ErrEnvelope OrdersEnv) (envs : Nat → OrdersEnv)
    (N : Nat) :
    ∀ (fuel p : Nat) (acc : List OrderRec) (tc : Option Nat),
      1 ≤ p → p ≤ N → N - p < fuel →
      (∀ k, p + 1 ≤ k → k ≤ N → fetch k = .ok (envs k)) →
      getOrderPages fetch "" fuel ⟨true, acc, ⟨some p, some N, tc⟩⟩ =
        some (.ok ⟨true, acc ++ pagesConcat envs (p + 1) (N - p), ⟨some N, some N, tc⟩⟩,
          List.range' (p + 1) (N - p)) := by
  intro fuel
  induction fuel with
  | zero => intro p acc tc _ _ hf _; omega
  | succ fuel ih =>
      intro p acc tc hp1 hpN hf hfetch
      by_cases hpt : p = N
      · subst hpt
        simp [getOrderPages, jsNumLt, pagesConcat, Nat.sub_self]
      · have hlt : p < N := by omega
        have hrw : N - p = (N - (p + 1)) + 1 := by omega
        have hfet : fetch (p + 1) = .ok (envs (p + 1)) := hfetch (p + 1) (by omega) (by omega)
        have hih := ih (p + 1) (acc ++ (envs (p + 1)).orders) tc (by omega) (by omega)
          (by omega) (fun k hk1 hk2 => hfetch k (by omega) hk2)
        rw [hrw, pagesConcat, List.range'_succ]
        simp only [List.foldr_cons]
        simp [getOrderPages, jsNumLt, hlt, hfet, hih, pagesConcat, List.append_assoc]

/-- The filtered pager run: same page requests, orders filtered to the
target state, meta reduced to the filtered count. -/
theorem pager_run_filtered (fetch : Nat → Except ErrEnvelope OrdersEnv)
    (envs : Nat → OrdersEnv) (N : Nat) (s : String) (hs : s ≠ "") :
    ∀ (fuel p : Nat) (acc : List OrderRec) (tc : Option Nat),
      1 ≤ p → p ≤ N → N - p < fuel →
      (∀ k, p + 1 ≤ k → k ≤ N → fetch k = .ok (envs k)) →
      getOrderPages fetch s fuel ⟨true, acc, ⟨some p, some N, tc⟩⟩ =
        some (.ok ⟨true,
          (acc ++ pagesConcat envs (p + 1) (N - p)).filter (fun o => o.state = s),
          ⟨none, none,
           some ((acc ++ pagesConcat envs (p + 1) (N - p)).filter
             (fun o => o.state = s)).length⟩⟩,
          List.range' (p + 1) (N - p)) := by
  intro fuel
  induction fuel with
  | zero => intro p acc tc _ _ hf _; omega
  | succ fuel ih =>
      intro p acc tc hp1 hpN hf hfetch
      by_cases hpt : p = N
      · subst hpt
        simp [getOrderPages, jsNumEq, jsNumLt, hs, pagesConcat, Nat.sub_self]
      · have hlt : p < N := by omega
        have hrw : N - p = (N - (p + 1)) + 1 := by omega
        have hfet : fetch (p + 1) = .ok (envs (p + 1)) := hfetch (p + 1) (by omega) (by omega)
        have hih := ih (p + 1)
          ((acc.filter (fun o => o.state = s)) ++ (envs (p + 1)).orders) tc (by omega)
          (by omega) (by omega) (fun k hk1 hk2 => hfetch k (by omega) hk2)
        have hkey : ∀ l2 : List OrderRec,
            ((acc.filter (fun o => o.state = s) ++ l2)).filter (fun o => o.state = s) =
              (acc ++ l2).filter (fun o => o.state = s) := by
          intro l2
          rw [List.filter_append, List.filter_append, filter_idem]
        rw [hrw, pagesConcat, List.range'_succ]
        simp only [List.foldr_cons]
        simp [getOrderPages, jsNumEq, jsNumLt, hs, hpt, hlt, hfet, hih, pagesConcat,
          List.append_assoc, hkey]

/-- C4: a listing with `total_pages = N ≥ 1` whose every page fetch
succeeds: `getOrders` (page-0 bootstrap plus `pollOrders` /
`_getOrderPages`) issues exactly N page requests and returns the pages'
orders concatenated in original order; with a state filter
(`getOrdersByState`) the returned orders are exactly those whose state
equals the filter and the returned meta `total_count` is the filtered
count. -/
theorem c4_pager_full_listing :
    ∀ (fetch : Nat → Except ErrEnvelope OrdersEnv) (envs : Nat → OrdersEnv)
      (N : Nat) (tc : Option Nat) (s : String) (fuel : Nat),
      1 ≤ N → N ≤ fuel →
      envs 1 = ⟨true, (envs 1).orders, ⟨some 1, some N, tc⟩⟩ →
      fetch 0 = .ok (envs 1) →
      (∀ k, 2 ≤ k → k ≤ N → fetch k = .ok (envs k)) →
      (getOrders fetch "" fuel =
         some (.ok ⟨true, pagesConcat envs 1 N, ⟨some N, some N, tc⟩⟩,
           0 :: List.range' 2 (N - 1)) ∧
       (0 :: List.range' 2 (N - 1)).length = N) ∧
      (s ≠ "" →
        getOrders fetch s fuel =
          some (.ok ⟨true, (pagesConcat envs 1 N).filter (fun o => o.state = s),
            ⟨none, none, some ((pagesConcat envs 1 N).filter (fun o => o.state = s)).length⟩⟩,
            0 :: List.range' 2 (N - 1))) := by
  intro fetch envs N tc s fuel hN hfuel henv1 h0 hks
  have h1 : N = (N - 1) + 1 := by omega
  have hshape : pagesConcat envs 1 N = (envs 1).orders ++ pagesConcat envs 2 (N - 1) :=
    calc pagesConcat envs 1 N = pagesConcat envs 1 ((N - 1) + 1) := by rw [← h1]
      _ = (envs 1).orders ++ pagesConcat envs 2 (N - 1) := by
          rw [pagesConcat, List.range'_succ]
          rfl
  have hlen : (0 :: List.range' 2 (N - 1)).length = N := by
    simp [List.length_range']
    omega
  have hrun : getOrderPages fetch "" fuel (envs 1) =
      some (.ok ⟨true, (envs 1).orders ++ pagesConcat envs 2 (N - 1), ⟨some N, some N, tc⟩⟩,
        List.range' 2 (N - 1)) := by
    conv_lhs => rw [henv1]
    have h2 := pager_run fetch envs N fuel 1 (envs 1).orders tc (by omega) hN (by omega)
      (fun k hk1 hk2 => hks k hk1 hk2)
    simpa using h2
  refine ⟨⟨?_, hlen⟩, ?_⟩
  · simp only [getOrders, h0, hrun]
    rw [hshape]
  · intro hs
    have hrunf : getOrderPages fetch s fuel (envs 1) =
        some (.ok ⟨true,
          ((envs 1).orders ++ pagesConcat envs 2 (N - 1)).filter (fun o => o.state = s),
          ⟨none, none,
           some (((envs 1).orders ++ pagesConcat envs 2 (N - 1)).filter
             (fun o => o.state = s)).length⟩⟩,
          List.range' 2 (N - 1)) := by
      conv_lhs => rw [henv1]
      have h2 := pager_run_filtered fetch envs N s hs fuel 1 (envs 1).orders tc (by omega)
        hN (by omega) (fun k hk1 hk2 => hks k hk1 hk2)
      simpa using h2
    simp only [getOrders, h0, hrunf]
    rw [hshape]

/-- A mocked 3-page listing: page 1 = a,b; page 2 = c; page 3 = d,e
(total pages 3, server total count 5). -/
def pagerEnvs : Nat → OrdersEnv
  | 2 => ⟨true, [⟨"c", "traded"⟩], ⟨some 2, some 3, some 5⟩⟩
  | 3 => ⟨true, [⟨"d", "pending"⟩, ⟨"e", "traded"⟩], ⟨some 3, some 3, some 5⟩⟩
  | _ => ⟨true, [⟨"a", "traded"⟩, ⟨"b", "pending"⟩], ⟨some 1, some 3, some 5⟩⟩

def pagerFetch : Nat → Except ErrEnvelope OrdersEnv := fun k => .ok (pagerEnvs k)

/-- C4 witness: the mocked 3-page listing — exactly 3 page requests,
pages concatenated in order; with the `traded` filter, exactly the traded
orders and the recomputed count. -/
theorem c4_pager_full_listing_witness :
    (getOrders pagerFetch "" 5 =
       some (.ok ⟨true, pagesConcat pagerEnvs 1 3, ⟨some 3, some 3, some 5⟩⟩,
         0 :: List.range' 2 (3 - 1)) ∧
     (0 :: List.range' 2 (3 - 1)).length = 3) ∧
    getOrders pagerFetch "traded" 5 =
      some (.ok ⟨true, (pagesConcat pagerEnvs 1 3).filter (fun o => o.state = "traded"),
        ⟨none, none,
         some ((pagesConcat pagerEnvs 1 3).filter (fun o => o.state = "traded")).length⟩⟩,
        0 :: List.range' 2 (3 - 1)) :=
  ⟨(c4_pager_full_listing pagerFetch pagerEnvs 3 (some 5) "traded" 5 (by decide) (by decide)
      rfl rfl (fun _ _ _ => rfl)).1,
   (c4_pager_full_listing pagerFetch pagerEnvs 3 (some 5) "traded" 5 (by decide) (by decide)
      rfl rfl (fun _ _ _ => rfl)).2 (by decide)⟩

/-- C9 witness: both cancel implementations at the demo client, order id
`1`, nonce 1000 — the index.js request is a PUT with the cancel body yet
its signature header covers the GET-shaped message, while the part_002
signature header covers the PUT-shaped message. -/
theorem c9_cancel_signing_divergence_witness :
    (Client.cancelOrderIdV1 demoClient "1" (fun _ => .ok ⟨"1", "canceled"⟩) 1000).requests.map
        NetReq.method = [.put] ∧
    (Client.cancelOrderIdV1 demoClient "1" (fun _ => .ok ⟨"1", "canceled"⟩) 1000).requests.map
        NetReq.body = [some (Json.mkObj [("state", .str "canceling")])] ∧
    (Client.cancelOrderIdV1 demoClient "1" (fun _ => .ok ⟨"1", "canceled"⟩) 1000).requests.map
        (fun req => jsGet req.headers "X-SBTC-SIGNATURE") =
      [some (optHVal ((signedMessage demoClient 1000 "GET" ("/orders/" ++ "1") .null).map
         (hmacSha384Hex demoClient.secret)))] ∧
    (Client.cancelOrderId demoClient "1" (fun _ => .ok ⟨"1", "canceled"⟩) 1000).requests.map
        (fun req => jsGet req.headers "X-SBTC-SIGNATURE") =
      [some (optHVal ((signedMessage demoClient 1000 "PUT" ("/orders/" ++ "1")
          (Json.mkObj [("state", .str "canceling")])).map
         (hmacSha384Hex demoClient.secret)))] := by
  obtain ⟨a, b, c⟩ := c9_cancel_signing_divergence.1 demoClient "1"
    (fun _ => .ok ⟨"1", "canceled"⟩) 1000 (by decide) (by decide)
  exact ⟨a, b, c, c9_cancel_signing_divergence.2.1 demoClient "1"
    (fun _ => .ok ⟨"1", "canceled"⟩) 1000 (by decide) (by decide)⟩

end Surbtc
